import Mathlib

/-!
simple-library-system: the book catalogue, its in-memory store, its service and its
HTTP handlers.

A shallow embedding of

* `internal/domain/book.go`        (`Book`, `Validate`, `IsAvailable`),
* `internal/domain/repository.go`  (the `BookRepository` contract),
* `internal/repo/inmemory/book_repo.go` (the map-backed store, once on values and
  once, in `inmemory.ptr`, with the pointers of the source),
* `internal/service/book_service.go`    (the service layer),
* `internal/handler/book_handler.go`    (the HTTP handlers, with a model of the
  standard library's `strconv.ParseUint` for the path id),

followed by theorems about them.

Conventions of the embedding

* A Go `error` is `Option String`: `none` is `nil`, `some msg` is
  `errors.New(msg)`.  A result pair `(*Book, error)` is `Except String Book`.
* Methods on a pointer receiver that mutate are written in state-passing style:
  every repository operation returns the store after the call, and an operation
  that writes through its `*Book` argument also returns the caller's book after
  the call.
* Go's `uint` is a natural number below `uintModulus`; `nextID++` wraps.
  `int` fields are only ever compared, never computed with, so they are `Int`.
* The `context.Context` argument is not read by the in-memory store nor by the
  service and is left out.  The store's `sync.RWMutex` serialises the
  operations; the embedding is of sequential execution.
-/

deriving instance DecidableEq for Except

namespace domain

/-- An instant of `time.Time`, in nanoseconds; the zero value is `0`. -/
abbrev Time := Int

/-- The number of values of Go's `uint` on the 64-bit targets. -/
def uintModulus : Nat := 2 ^ 64

/-- Book entity (`type Book struct`). -/
structure Book where
  ID : Nat
  Title : String
  Author : String
  Available : Int
  Quantity : Int
  CreatedAt : Time
  UpdatedAt : Time
deriving DecidableEq

/-- Entity validation, `func (b *Book) Validate() error`. -/
def Book.Validate (b : Book) : Option String :=
  if b.Title = "" then some "title is mandatory"
  else if b.Author = "" then some "author is mandatory"
  else if b.Available < 0 then some "availability can not be negative"
  else if b.Available > b.Quantity then
    some "quantity is always more or equal to availability"
  else none

/-- Availability check, `func (b *Book) IsAvailable() bool`. -/
def Book.IsAvailable (b : Book) : Bool :=
  decide (b.Available > 0)

/-- The repository contract (`type BookRepository interface`) over a store state `σ`.
`Create` writes the assigned id through its argument, so it hands the book back.
`FindAll` takes the choice `ord` of the order in which the store enumerates its
records, for stores whose enumeration order is not determined. -/
structure BookRepository (σ : Type) where
  Create : σ → Book → σ × Book × Option String
  FindByID : σ → Nat → σ × Except String Book
  FindAll : σ → Nat → σ × Except String (List Book)
  Update : σ → Book → σ × Option String
  Delete : σ → Nat → σ × Option String

end domain

namespace inmemory

open domain

/-- The in-memory store (`type bookRepository struct`): `books` is the Go map
`map[uint]*domain.Book`, a finite map with at most one record per key. -/
structure bookRepository where
  books : AList (fun _ : Nat => Book)
  nextID : Nat

/-- The constructor `NewBookRepository`: an empty map, ids start at 1. -/
def NewBookRepository : bookRepository :=
  { books := ∅, nextID := 1 }

/-- The store's `Create`: assign `nextID` to the caller's book, increment the counter
(a `uint`, so modulo `uintModulus`), store a copy under the assigned id. -/
def bookRepository.Create (r : bookRepository) (book : Book) :
    bookRepository × Book × Option String :=
  let book1 : Book := { book with ID := r.nextID }
  let nextID1 := (r.nextID + 1) % uintModulus
  let bookCopy := book1
  ({ books := r.books.insert book1.ID bookCopy, nextID := nextID1 }, book1, none)

/-- The store's `FindByID`: a copy of the record under `id`, or "book not found". -/
def bookRepository.FindByID (r : bookRepository) (id : Nat) :
    bookRepository × Except String Book :=
  match r.books.lookup id with
  | none => (r, Except.error "book not found")
  | some book =>
    let bookCopy := book
    (r, Except.ok bookCopy)

/-- The order in which `for _, book := range r.books` visits the entries of the map.
Go leaves it unspecified; `ord` selects one of the orderings of the entries (every
ordering is selected by some `ord`, and an `ord` out of range selects the first). -/
def rangeOrder (m : AList (fun _ : Nat => Book)) (ord : Nat) : List (Sigma fun _ : Nat => Book) :=
  m.entries.permutations.getD ord m.entries

/-- The store's `FindAll`: append a copy of each visited record to an empty slice. -/
def bookRepository.FindAll (r : bookRepository) (ord : Nat) :
    bookRepository × Except String (List Book) :=
  let books := (rangeOrder r.books ord).foldl (fun acc e => acc ++ [e.2]) []
  (r, Except.ok books)

/-- The store's `Update`: overwrite the record under `book.ID` with a copy of `book`,
or "book not found" when that key is absent. -/
def bookRepository.Update (r : bookRepository) (book : Book) :
    bookRepository × Option String :=
  match r.books.lookup book.ID with
  | none => (r, some "book not found")
  | some _ =>
    let bookCopy := book
    ({ r with books := r.books.insert book.ID bookCopy }, none)

/-- The store's `Delete`: remove the key `id`, or "book not found" when it is absent. -/
def bookRepository.Delete (r : bookRepository) (id : Nat) :
    bookRepository × Option String :=
  match r.books.lookup id with
  | none => (r, some "book not found")
  | some _ => ({ r with books := r.books.erase id }, none)

/-- The in-memory store as an implementation of the repository contract. -/
def repo : BookRepository bookRepository where
  Create := bookRepository.Create
  FindByID := bookRepository.FindByID
  FindAll := bookRepository.FindAll
  Update := bookRepository.Update
  Delete := bookRepository.Delete

end inmemory

namespace service

open domain

variable {σ : Type}

/-- Service `CreateBook`: validate, set `Available` to `Quantity`, delegate to the store. -/
def CreateBook (repo : BookRepository σ) (s : σ) (book : Book) : σ × Book × Option String :=
  match book.Validate with
  | some err => (s, book, some err)
  | none =>
    let book1 : Book := { book with Available := book.Quantity }
    repo.Create s book1

/-- Service `GetBook`: any store error becomes "book not found". -/
def GetBook (repo : BookRepository σ) (s : σ) (id : Nat) : σ × Except String Book :=
  match repo.FindByID s id with
  | (s1, Except.error _) => (s1, Except.error "book not found")
  | (s1, Except.ok book) => (s1, Except.ok book)

/-- Service `GetAllBooks`: delegate to the store. -/
def GetAllBooks (repo : BookRepository σ) (s : σ) (ord : Nat) : σ × Except String (List Book) :=
  repo.FindAll s ord

/-- Service `UpdateBook`: fetch the existing record, overwrite its four mutable fields
with the caller's, validate the result, delegate to the store. -/
def UpdateBook (repo : BookRepository σ) (s : σ) (id : Nat) (updatedBook : Book) :
    σ × Option String :=
  match repo.FindByID s id with
  | (s1, Except.error _) => (s1, some "book not found")
  | (s1, Except.ok existing) =>
    let existing1 : Book :=
      { existing with
        Title := updatedBook.Title
        Author := updatedBook.Author
        Quantity := updatedBook.Quantity
        Available := updatedBook.Available }
    match existing1.Validate with
    | some err => (s1, some err)
    | none => repo.Update s1 existing1

/-- Service `DeleteBook`: probe with `FindByID`, then delegate to the store. -/
def DeleteBook (repo : BookRepository σ) (s : σ) (id : Nat) : σ × Option String :=
  match repo.FindByID s id with
  | (s1, Except.error _) => (s1, some "book not present or already deleted")
  | (s1, Except.ok _) => repo.Delete s1 id

end service

namespace inmemory

open domain

/-- A call of one of the five repository operations, with its arguments. -/
inductive Op where
  | create (book : Book)
  | findByID (id : Nat)
  | findAll (ord : Nat)
  | update (book : Book)
  | delete (id : Nat)

/-- The store after the repository operation `op` ran on the store `r`. -/
def Op.apply (op : Op) (r : bookRepository) : bookRepository :=
  match op with
  | Op.create book => (r.Create book).1
  | Op.findByID id => (r.FindByID id).1
  | Op.findAll ord => (r.FindAll ord).1
  | Op.update book => (r.Update book).1
  | Op.delete id => (r.Delete id).1

/-- The id that `op` assigned when run on `r`: the id `Create` wrote into the caller's
book; the other operations assign none. -/
def Op.assigned (op : Op) (r : bookRepository) : List Nat :=
  match op with
  | Op.create book => [(r.Create book).2.1.ID]
  | _ => []

/-- Whether the operation is a `Create`. -/
def Op.isCreate : Op → Bool
  | Op.create _ => true
  | _ => false

/-- The number of `Create` calls in a sequence of operations. -/
def countCreates (ops : List Op) : Nat :=
  (ops.filter Op.isCreate).length

/-- The store after running the operations `ops`, first to last, from the store `r`. -/
def runOps : List Op → bookRepository → bookRepository
  | [], r => r
  | op :: ops, r => runOps ops (op.apply r)

/-- The ids assigned by the successive `Create` calls of `ops` run from `r`, in call order. -/
def assignedIDs : List Op → bookRepository → List Nat
  | [], _ => []
  | op :: ops, r => op.assigned r ++ assignedIDs ops (op.apply r)

/-- A store state the program can be in: the result of some finite sequence of
repository operations on the store made by `NewBookRepository`. -/
def Reachable (r : bookRepository) : Prop :=
  ∃ ops : List Op, runOps ops NewBookRepository = r

/-- The invariant of a persisted book: title and author non-empty and
`0 ≤ available ≤ quantity`. -/
def persistedOK (b : Book) : Prop :=
  b.Title ≠ "" ∧ b.Author ≠ "" ∧ 0 ≤ b.Available ∧ b.Available ≤ b.Quantity

instance (b : Book) : Decidable (persistedOK b) := by
  unfold persistedOK; infer_instance

/-- Every record of the store satisfies the persisted-book invariant. -/
def storedBooksOK (r : bookRepository) : Prop :=
  ∀ e ∈ r.books.entries, persistedOK e.2

instance (r : bookRepository) : Decidable (storedBooksOK r) := by
  unfold storedBooksOK; infer_instance

/-- Every record of the store carries, in its `ID` field, the key it is stored under. -/
def idsMatchKeys (r : bookRepository) : Prop :=
  ∀ e ∈ r.books.entries, e.2.ID = e.1

instance (r : bookRepository) : Decidable (idsMatchKeys r) := by
  unfold idsMatchKeys; infer_instance

end inmemory

namespace service

open domain

variable {σ : Type}

/-- A call of one of the five service methods, with its arguments. -/
inductive Call where
  | createBook (book : Book)
  | getBook (id : Nat)
  | getAllBooks (ord : Nat)
  | updateBook (id : Nat) (updatedBook : Book)
  | deleteBook (id : Nat)

/-- The store after the service call `c` and the error the call returned. -/
def Call.run (repo : BookRepository σ) (c : Call) (s : σ) : σ × Option String :=
  match c with
  | Call.createBook book => ((CreateBook repo s book).1, (CreateBook repo s book).2.2)
  | Call.getBook id =>
    match GetBook repo s id with
    | (s1, Except.error e) => (s1, some e)
    | (s1, Except.ok _) => (s1, none)
  | Call.getAllBooks ord =>
    match GetAllBooks repo s ord with
    | (s1, Except.error e) => (s1, some e)
    | (s1, Except.ok _) => (s1, none)
  | Call.updateBook id updatedBook => UpdateBook repo s id updatedBook
  | Call.deleteBook id => DeleteBook repo s id

/-- The store after running the service calls `cs`, first to last, from the store `s`. -/
def runCalls (repo : BookRepository σ) : List Call → σ → σ
  | [], s => s
  | c :: cs, s => runCalls repo cs (c.run repo s).1

/-- The errors returned by the service calls `cs` run from `s`, in call order. -/
def callErrors (repo : BookRepository σ) : List Call → σ → List (Option String)
  | [], _ => []
  | c :: cs, s => (c.run repo s).2 :: callErrors repo cs (c.run repo s).1

end service

namespace strconv

/-- The two failures of a numeric conversion: `ErrSyntax` (here `malformed`) and
`ErrRange` (here `outOfRange`). -/
inductive NumError where
  | malformed
  | outOfRange
deriving DecidableEq

/-- Whether the byte is one of the digits `'0'` to `'9'`. A byte of a multi-byte
character is never one, so the test is made on the character. -/
def isDecimalDigit (c : Char) : Bool :=
  decide (48 ≤ c.toNat) && decide (c.toNat ≤ 57)

/-- The largest value of the requested size, `uint64(1)<<32 - 1`. -/
def maxVal : Nat := 2 ^ 32 - 1

/-- The smallest number whose tenfold exceeds the largest `uint64`, `maxUint64/10 + 1`. -/
def cutoff : Nat := (2 ^ 64 - 1) / 10 + 1

/-- Modelled from the spec: the digit loop of Go's standard-library
`strconv.ParseUint(s, 10, 32)`, which is not among the repository's sources and by
which the path parameter "is parsed as a 32-bit unsigned decimal integer". The loop
visits the bytes left to right with the value `n` read so far (a `uint64`): a byte
that is no decimal digit is a syntax error, a value that leaves the 32-bit range is a
range error, and the loop stops at the first of them. -/
def parseUintLoop : List Char → Nat → Except NumError Nat
  | [], n => Except.ok n
  | c :: cs, n =>
    if isDecimalDigit c then
      let d := c.toNat - 48
      if n ≥ cutoff then Except.error NumError.outOfRange
      else
        let n10 := (n * 10) % 2 ^ 64
        let n1 := (n10 + d) % 2 ^ 64
        if n1 < n10 ∨ n1 > maxVal then Except.error NumError.outOfRange
        else parseUintLoop cs n1
    else Except.error NumError.malformed

/-- Modelled from the spec: Go's standard-library `strconv.ParseUint(s, 10, 32)`, not
among the repository's sources: the empty string is a syntax error, any other string
goes through the digit loop from 0. -/
def ParseUint (s : String) : Except NumError Nat :=
  if s = "" then Except.error NumError.malformed else parseUintLoop s.data 0

/-- The number a string of decimal digits denotes, most significant digit first. -/
def decimalValue (cs : List Char) : Nat :=
  cs.foldl (fun acc c => 10 * acc + (c.toNat - 48)) 0

/-- The words of the specification for an accepted path id: `s` denotes the base-10
unsigned integer `n` (it is a non-empty string of decimal digits, without sign, whose
value is `n`) and `n` fits in 32 bits. -/
def denotesUint32 (s : String) (n : Nat) : Prop :=
  s.data ≠ [] ∧ (∀ c ∈ s.data, isDecimalDigit c = true) ∧ decimalValue s.data = n ∧
    n ≤ 4294967295

instance (s : String) (n : Nat) : Decidable (denotesUint32 s n) := by
  unfold denotesUint32; infer_instance

end strconv

namespace handler

open domain

variable {σ : Type}

/-- The status code `http.StatusOK`. -/
def StatusOK : Nat := 200

/-- The status code `http.StatusCreated`. -/
def StatusCreated : Nat := 201

/-- The status code `http.StatusBadRequest`. -/
def StatusBadRequest : Nat := 400

/-- The status code `http.StatusNotFound`. -/
def StatusNotFound : Nat := 404

/-- The status code `http.StatusInternalServerError`. -/
def StatusInternalServerError : Nat := 500

/-- A value placed in a reply body: a string, an integer, a book or a list of books. -/
inductive Value where
  | str (s : String)
  | int (n : Int)
  | book (b : Book)
  | books (bs : List Book)
deriving DecidableEq

/-- The reply written by `c.JSON(status, gin.H{...})`: the status code and the fields
of the JSON object, in the order the source lists them. -/
structure Response where
  status : Nat
  body : List (String × Value)
deriving DecidableEq

/-- Handler `CreateBook` (POST /api/v1/books). `body` is the outcome of
`c.ShouldBindJSON(&book)`: the decoder's message, or the decoded book. -/
def CreateBook (repo : BookRepository σ) (s : σ) (body : Except String Book) : σ × Response :=
  match body with
  | Except.error err =>
    (s, { status := StatusBadRequest, body := [("error", Value.str err)] })
  | Except.ok book =>
    match service.CreateBook repo s book with
    | (s1, _, some err) =>
      (s1, { status := StatusBadRequest, body := [("error", Value.str err)] })
    | (s1, book1, none) =>
      (s1, { status := StatusCreated,
             body := [("message", Value.str "Book created successfully"),
                      ("data", Value.book book1)] })

/-- Handler `GetBook` (GET /api/v1/books/:id). `idParam` is `c.Param("id")`. -/
def GetBook (repo : BookRepository σ) (s : σ) (idParam : String) : σ × Response :=
  match strconv.ParseUint idParam with
  | Except.error _ =>
    (s, { status := StatusBadRequest, body := [("error", Value.str "Invalid book ID")] })
  | Except.ok id =>
    match service.GetBook repo s id with
    | (s1, Except.error err) =>
      (s1, { status := StatusNotFound, body := [("error", Value.str err)] })
    | (s1, Except.ok book) =>
      (s1, { status := StatusOK, body := [("data", Value.book book)] })

/-- Handler `GetAllBooks` (GET /api/v1/books). -/
def GetAllBooks (repo : BookRepository σ) (s : σ) (ord : Nat) : σ × Response :=
  match service.GetAllBooks repo s ord with
  | (s1, Except.error err) =>
    (s1, { status := StatusInternalServerError, body := [("error", Value.str err)] })
  | (s1, Except.ok books) =>
    (s1, { status := StatusOK,
           body := [("data", Value.books books), ("count", Value.int books.length)] })

/-- Handler `UpdateBook` (PUT /api/v1/books/:id): the path id is parsed first, then the
body is decoded, then the service is called. -/
def UpdateBook (repo : BookRepository σ) (s : σ) (idParam : String)
    (body : Except String Book) : σ × Response :=
  match strconv.ParseUint idParam with
  | Except.error _ =>
    (s, { status := StatusBadRequest, body := [("error", Value.str "Invalid book ID")] })
  | Except.ok id =>
    match body with
    | Except.error err =>
      (s, { status := StatusBadRequest, body := [("error", Value.str err)] })
    | Except.ok book =>
      match service.UpdateBook repo s id book with
      | (s1, some err) =>
        (s1, { status := StatusBadRequest, body := [("error", Value.str err)] })
      | (s1, none) =>
        (s1, { status := StatusOK,
               body := [("message", Value.str "Book updated successfully")] })

/-- Handler `DeleteBook` (DELETE /api/v1/books/:id). -/
def DeleteBook (repo : BookRepository σ) (s : σ) (idParam : String) : σ × Response :=
  match strconv.ParseUint idParam with
  | Except.error _ =>
    (s, { status := StatusBadRequest, body := [("error", Value.str "Invalid book ID")] })
  | Except.ok id =>
    match service.DeleteBook repo s id with
    | (s1, some err) =>
      (s1, { status := StatusNotFound, body := [("error", Value.str err)] })
    | (s1, none) =>
      (s1, { status := StatusOK,
             body := [("message", Value.str "Book deleted successfully")] })

/-- A repository every operation of which fails with the given message and stores
nothing, as a relational store that cannot be reached does. It exercises the error
branches that the in-memory store never takes. -/
def failingRepo (msg : String) : BookRepository Unit where
  Create := fun s book => (s, book, some msg)
  FindByID := fun s _ => (s, Except.error msg)
  FindAll := fun s _ => (s, Except.error msg)
  Update := fun s _ => (s, some msg)
  Delete := fun s _ => (s, some msg)

end handler

namespace inmemory.ptr

open domain

/-!
The in-memory store once more, this time with its pointers. The map of the source is
`map[uint]*domain.Book` and the operations take and return `*domain.Book`; whether a
caller can reach a stored record through a pointer it holds is a question about
addresses, which the value-level embedding above cannot ask. Here a `*domain.Book` is
an index into a heap of `Book` objects, `bookCopy := *book; &bookCopy` appends a new
object to the heap, and an operation returns `none` when it dereferences a pointer
that addresses no object.
-/

/-- The store (`type bookRepository struct`) with the values of its map as pointers. -/
structure bookRepository where
  books : AList (fun _ : Nat => Nat)
  nextID : Nat

/-- The constructor `NewBookRepository`: an empty map, ids start at 1. -/
def NewBookRepository : bookRepository :=
  { books := ∅, nextID := 1 }

/-- The store's `Create` on the heap `h`: write `nextID` into the caller's object at
`book`, increment the counter, copy the object to a new address and store that address
under the assigned id. -/
def bookRepository.Create (h : List Book) (r : bookRepository) (book : Nat) :
    Option (List Book × bookRepository × Option String) :=
  match h[book]? with
  | none => none
  | some b =>
    let h1 := h.set book { b with ID := r.nextID }
    let nextID1 := (r.nextID + 1) % uintModulus
    let bookCopy := h1.length
    some (h1 ++ [{ b with ID := r.nextID }],
      { books := r.books.insert r.nextID bookCopy, nextID := nextID1 }, none)

/-- The store's `FindByID` on the heap `h`: copy the object stored under `id` to a new
address and return that address, or "book not found". -/
def bookRepository.FindByID (h : List Book) (r : bookRepository) (id : Nat) :
    Option (List Book × bookRepository × Except String Nat) :=
  match r.books.lookup id with
  | none => some (h, r, Except.error "book not found")
  | some book =>
    match h[book]? with
    | none => none
    | some b => some (h ++ [b], r, Except.ok h.length)

/-- The order in which the range loop visits the entries of the pointer map, chosen by
`ord` among all orderings of the entries. -/
def rangeOrder (m : AList (fun _ : Nat => Nat)) (ord : Nat) : List (Sigma fun _ : Nat => Nat) :=
  m.entries.permutations.getD ord m.entries

/-- One iteration of the loop of `FindAll`: copy the visited object to a new address
and append that address to the slice. -/
def findAllStep (acc : Option (List Book × List Nat)) (e : Sigma fun _ : Nat => Nat) :
    Option (List Book × List Nat) :=
  match acc with
  | none => none
  | some (h, books) =>
    match h[e.2]? with
    | none => none
    | some b => some (h ++ [b], books ++ [h.length])

/-- The store's `FindAll` on the heap `h`: the addresses of fresh copies of the stored
objects, in the order the map is visited. -/
def bookRepository.FindAll (h : List Book) (r : bookRepository) (ord : Nat) :
    Option (List Book × bookRepository × Except String (List Nat)) :=
  match (rangeOrder r.books ord).foldl findAllStep (some (h, [])) with
  | none => none
  | some (h1, books) => some (h1, r, Except.ok books)

/-- The store's `Update` on the heap `h`: copy the caller's object at `book` to a new
address and store that address under the object's id, or "book not found" when that
id is not a key of the map. -/
def bookRepository.Update (h : List Book) (r : bookRepository) (book : Nat) :
    Option (List Book × bookRepository × Option String) :=
  match h[book]? with
  | none => none
  | some b =>
    match r.books.lookup b.ID with
    | none => some (h, r, some "book not found")
    | some _ =>
      let bookCopy := h.length
      some (h ++ [b], { r with books := r.books.insert b.ID bookCopy }, none)

/-- The store's `Delete`: remove the key `id`, or "book not found" when it is absent. -/
def bookRepository.Delete (h : List Book) (r : bookRepository) (id : Nat) :
    Option (List Book × bookRepository × Option String) :=
  match r.books.lookup id with
  | none => some (h, r, some "book not found")
  | some _ => some (h, { r with books := r.books.erase id }, none)

/-- The program's memory as a caller of the repository sees it: the heap, the store,
and `held`, the pointers the caller holds. -/
structure World where
  heap : List Book
  repo : bookRepository
  held : List Nat

/-- The world at start: no object, a new repository, no pointer held. -/
def World.init : World :=
  { heap := [], repo := NewBookRepository, held := [] }

/-- What a caller of the repository can do: make a `Book` object of its own, overwrite
the fields of an object it holds a pointer to, or call one of the five operations,
passing pointers it holds and keeping the pointers it is handed back. -/
inductive Action where
  | newBook (b : Book)
  | mutate (p : Nat) (b : Book)
  | create (p : Nat)
  | findByID (id : Nat)
  | findAll (ord : Nat)
  | update (p : Nat)
  | delete (id : Nat)

/-- The world after the caller's action, or `none` when the caller does not hold the
pointer it uses or the operation dereferences a pointer that addresses no object. -/
def World.step (w : World) : Action → Option World
  | Action.newBook b =>
    some { w with heap := w.heap ++ [b], held := w.heap.length :: w.held }
  | Action.mutate p b =>
    if p ∈ w.held then some { w with heap := w.heap.set p b } else none
  | Action.create p =>
    if p ∈ w.held then
      match w.repo.Create w.heap p with
      | none => none
      | some (h, r, _) => some { heap := h, repo := r, held := w.held }
    else none
  | Action.findByID id =>
    match w.repo.FindByID w.heap id with
    | none => none
    | some (h, r, Except.error _) => some { heap := h, repo := r, held := w.held }
    | some (h, r, Except.ok p) => some { heap := h, repo := r, held := p :: w.held }
  | Action.findAll ord =>
    match w.repo.FindAll w.heap ord with
    | none => none
    | some (h, r, Except.error _) => some { heap := h, repo := r, held := w.held }
    | some (h, r, Except.ok ps) => some { heap := h, repo := r, held := ps ++ w.held }
  | Action.update p =>
    if p ∈ w.held then
      match w.repo.Update w.heap p with
      | none => none
      | some (h, r, _) => some { heap := h, repo := r, held := w.held }
    else none
  | Action.delete id =>
    match w.repo.Delete w.heap id with
    | none => none
    | some (h, r, _) => some { heap := h, repo := r, held := w.held }

/-- The world after the caller's actions `acts`, first to last, from the world `w`. -/
def World.run : List Action → World → Option World
  | [], w => some w
  | a :: acts, w =>
    match w.step a with
    | none => none
    | some w1 => World.run acts w1

/-- What `FindByID(id)` returns in the world `w`: the error, or the book its returned
pointer addresses. -/
def World.found (w : World) (id : Nat) : Option (Except String Book) :=
  match w.repo.FindByID w.heap id with
  | none => none
  | some (_, _, Except.error e) => some (Except.error e)
  | some (h, _, Except.ok p) => (h[p]?).map Except.ok

/-- The pointers of the store address objects, the pointers the caller holds address
objects, and the caller holds no pointer of the store. -/
def World.separated (w : World) : Prop :=
  (∀ e ∈ w.repo.books.entries, e.2 < w.heap.length) ∧
  (∀ p ∈ w.held, p < w.heap.length) ∧
  (∀ e ∈ w.repo.books.entries, e.2 ∉ w.held)

instance (w : World) : Decidable w.separated := by
  unfold World.separated; infer_instance

end inmemory.ptr

open domain inmemory

/-! ## Theorems -/

/-! ### The service over the in-memory store, unfolded -/

theorem createBook_of_invalid (r : bookRepository) (b : Book) (e : String)
    (hv : b.Validate = some e) :
    service.CreateBook inmemory.repo r b = (r, b, some e) := by
  simp [service.CreateBook, hv]

theorem createBook_of_valid (r : bookRepository) (b : Book) (hv : b.Validate = none) :
    service.CreateBook inmemory.repo r b =
      ({ books := r.books.insert r.nextID
            { b with Available := b.Quantity, ID := r.nextID },
         nextID := (r.nextID + 1) % uintModulus },
       { b with Available := b.Quantity, ID := r.nextID }, none) := by
  simp [service.CreateBook, hv, inmemory.repo, bookRepository.Create]

theorem createBook_ok_iff (r : bookRepository) (b : Book) :
    (service.CreateBook inmemory.repo r b).2.2 = none ↔ b.Validate = none := by
  cases hv : b.Validate with
  | none => simp [createBook_of_valid r b hv]
  | some e => simp [createBook_of_invalid r b e hv]

/-- C1. Whenever service CreateBook succeeds on the in-memory store, the book handed
back carries the newly assigned id (the counter's value before the call), has
available equal to quantity, and the record stored under that id has available equal
to quantity too, the quantity being the caller's; the caller's available is not
consulted. -/
theorem createBook_available_eq_quantity (r : bookRepository) (b : Book)
    (h : (service.CreateBook inmemory.repo r b).2.2 = none) :
    (service.CreateBook inmemory.repo r b).2.1.ID = r.nextID ∧
    (service.CreateBook inmemory.repo r b).2.1.Available =
      (service.CreateBook inmemory.repo r b).2.1.Quantity ∧
    (service.CreateBook inmemory.repo r b).2.1.Quantity = b.Quantity ∧
    ∃ stored : Book,
      (service.CreateBook inmemory.repo r b).1.books.lookup r.nextID = some stored ∧
      stored.Available = stored.Quantity ∧ stored.Quantity = b.Quantity := by
  have hv := (createBook_ok_iff r b).1 h
  rw [createBook_of_valid r b hv]
  refine ⟨rfl, rfl, rfl, _, AList.lookup_insert _, rfl, rfl⟩

/-- C1, at the scenario of the spec: quantity 3 with available 0 on a fresh store. -/
theorem createBook_available_eq_quantity_witness :
    (service.CreateBook inmemory.repo NewBookRepository
      ⟨0, "A", "X", 0, 3, 0, 0⟩).2.1.Available =
    (service.CreateBook inmemory.repo NewBookRepository
      ⟨0, "A", "X", 0, 3, 0, 0⟩).2.1.Quantity :=
  (createBook_available_eq_quantity NewBookRepository ⟨0, "A", "X", 0, 3, 0, 0⟩
    (by decide)).2.1

theorem validate_passes_iff (b : Book) :
    b.Validate = none ↔
      (b.Title ≠ "" ∧ b.Author ≠ "" ∧ 0 ≤ b.Available ∧ b.Available ≤ b.Quantity) := by
  unfold Book.Validate
  split_ifs with h1 h2 h3 h4
  · simp [h1]
  · simp [h2]
  · simp; intro _ _ h; omega
  · simp; intro _ _ _; omega
  · simp; exact ⟨h1, h2, by omega, by omega⟩

/-- C2. Validate returns no error exactly when title and author are both non-empty and
0 <= available <= quantity; a book that passes therefore has a non-negative quantity. -/
theorem validate_eq_none_iff (b : Book) :
    (b.Validate = none ↔
      (b.Title ≠ "" ∧ b.Author ≠ "" ∧ 0 ≤ b.Available ∧ b.Available ≤ b.Quantity)) ∧
    (b.Validate = none → 0 ≤ b.Quantity) :=
  ⟨validate_passes_iff b, fun h => by have := (validate_passes_iff b).1 h; omega⟩

/-- C2, at a book with quantity 3 and available 2. -/
theorem validate_eq_none_iff_witness :
    (0 : Int) ≤ (⟨7, "A", "X", 2, 3, 0, 0⟩ : Book).Quantity :=
  (validate_eq_none_iff ⟨7, "A", "X", 2, 3, 0, 0⟩).2 (by decide)

/-! ### Reading the map after a write -/

theorem lookup_insert_eq_ite (m : AList (fun _ : Nat => Book)) (a k : Nat) (v : Book) :
    (m.insert a v).lookup k = if k = a then some v else m.lookup k := by
  by_cases h : k = a
  · subst h; simp
  · simp [h, AList.lookup_insert_ne h]

theorem lookup_erase_eq_ite (m : AList (fun _ : Nat => Book)) (a k : Nat) :
    (m.erase a).lookup k = if k = a then none else m.lookup k := by
  by_cases h : k = a
  · subst h; simp
  · simp [h, AList.lookup_erase_ne h]

theorem getBook_eq (r : bookRepository) (id : Nat) :
    service.GetBook inmemory.repo r id =
      (r, match r.books.lookup id with
          | none => Except.error "book not found"
          | some b => Except.ok b) := by
  cases h : r.books.lookup id <;>
    simp [service.GetBook, inmemory.repo, bookRepository.FindByID, h]

theorem deleteBook_eq (r : bookRepository) (id : Nat) :
    service.DeleteBook inmemory.repo r id =
      match r.books.lookup id with
      | none => (r, some "book not present or already deleted")
      | some _ => ({ r with books := r.books.erase id }, none) := by
  cases h : r.books.lookup id <;>
    simp [service.DeleteBook, inmemory.repo, bookRepository.FindByID,
      bookRepository.Delete, h]

theorem updateBook_of_absent (r : bookRepository) (id : Nat) (u : Book)
    (h : r.books.lookup id = none) :
    service.UpdateBook inmemory.repo r id u = (r, some "book not found") := by
  simp [service.UpdateBook, inmemory.repo, bookRepository.FindByID, h]

theorem validate_overwritten (e u : Book) :
    ({ e with Title := u.Title, Author := u.Author, Quantity := u.Quantity,
              Available := u.Available } : Book).Validate = u.Validate := rfl

theorem updateBook_of_invalid (r : bookRepository) (id : Nat) (u e : Book) (err : String)
    (h : r.books.lookup id = some e) (hv : u.Validate = some err) :
    service.UpdateBook inmemory.repo r id u = (r, some err) := by
  simp [service.UpdateBook, inmemory.repo, bookRepository.FindByID, h,
    validate_overwritten, hv]

theorem updateBook_of_valid (r : bookRepository) (id : Nat) (u e : Book)
    (h : r.books.lookup id = some e) (hv : u.Validate = none) :
    service.UpdateBook inmemory.repo r id u =
      r.Update { e with Title := u.Title, Author := u.Author, Quantity := u.Quantity,
                        Available := u.Available } := by
  simp [service.UpdateBook, inmemory.repo, bookRepository.FindByID, h,
    validate_overwritten, hv]

/-! ### The persisted-book invariant -/

theorem storedBooksOK_iff (r : bookRepository) :
    storedBooksOK r ↔ ∀ k b, r.books.lookup k = some b → persistedOK b := by
  constructor
  · intro h k b hk
    exact h ⟨k, b⟩ (AList.mem_lookup_iff.1 hk)
  · intro h e he
    exact h e.1 e.2 (AList.mem_lookup_iff.2 he)

theorem persistedOK_of_validate (b : Book) (h : b.Validate = none) : persistedOK b :=
  (validate_passes_iff b).1 h

theorem storedBooksOK_insert (r : bookRepository) (a n : Nat) (v : Book)
    (h : storedBooksOK r) (hv : persistedOK v) :
    storedBooksOK { books := r.books.insert a v, nextID := n } := by
  rw [storedBooksOK_iff] at h ⊢
  intro k b hk
  simp only [lookup_insert_eq_ite] at hk
  split_ifs at hk with hka
  · cases hk; exact hv
  · exact h k b hk

theorem storedBooksOK_erase (r : bookRepository) (a n : Nat)
    (h : storedBooksOK r) :
    storedBooksOK { books := r.books.erase a, nextID := n } := by
  rw [storedBooksOK_iff] at h ⊢
  intro k b hk
  simp only [lookup_erase_eq_ite] at hk
  split_ifs at hk with hka
  exact h k b hk

theorem storedBooksOK_call (c : service.Call) (r : bookRepository)
    (h : storedBooksOK r) : storedBooksOK (c.run inmemory.repo r).1 := by
  cases c with
  | createBook book =>
    cases hv : book.Validate with
    | some e => simpa [service.Call.run, createBook_of_invalid r book e hv] using h
    | none =>
      simp only [service.Call.run, createBook_of_valid r book hv]
      apply storedBooksOK_insert r _ _ _ h
      have hb := persistedOK_of_validate book hv
      exact ⟨hb.1, hb.2.1, le_trans hb.2.2.1 hb.2.2.2, le_refl _⟩
  | getBook id =>
    simp only [service.Call.run, getBook_eq]
    cases r.books.lookup id <;> exact h
  | getAllBooks ord =>
    simpa [service.Call.run, service.GetAllBooks, inmemory.repo,
      bookRepository.FindAll] using h
  | updateBook id u =>
    simp only [service.Call.run]
    cases hl : r.books.lookup id with
    | none => simpa [updateBook_of_absent r id u hl] using h
    | some e =>
      cases hv : u.Validate with
      | some err => simpa [updateBook_of_invalid r id u e err hl hv] using h
      | none =>
        rw [updateBook_of_valid r id u e hl hv]
        unfold bookRepository.Update
        split
        · exact h
        · exact storedBooksOK_insert r _ _ _ h
            (persistedOK_of_validate _ ((validate_overwritten e u).trans hv))
  | deleteBook id =>
    simp only [service.Call.run, deleteBook_eq]
    cases r.books.lookup id with
    | none => exact h
    | some _ => exact storedBooksOK_erase r _ _ h

theorem storedBooksOK_runCalls (cs : List service.Call) (r : bookRepository)
    (h : storedBooksOK r) : storedBooksOK (service.runCalls inmemory.repo cs r) := by
  induction cs generalizing r with
  | nil => exact h
  | cons c cs ih => exact ih _ (storedBooksOK_call c r h)

/-- C3. Persisted-book invariant: after any finite sequence of service calls (CreateBook,
GetBook, GetAllBooks, UpdateBook, DeleteBook, with arbitrary arguments) on a fresh
in-memory repository, every stored book has a non-empty title, a non-empty author and
0 <= available <= quantity. -/
theorem persisted_books_valid (cs : List service.Call) (k : Nat) (b : Book)
    (h : (service.runCalls inmemory.repo cs NewBookRepository).books.lookup k = some b) :
    b.Title ≠ "" ∧ b.Author ≠ "" ∧ 0 ≤ b.Available ∧ b.Available ≤ b.Quantity := by
  have h0 : storedBooksOK NewBookRepository := by
    intro e he
    simp [NewBookRepository] at he
  exact (storedBooksOK_iff _).1 (storedBooksOK_runCalls cs _ h0) k b h

/-- C3, after creating two books, emptying the second by an update and deleting the first. -/
theorem persisted_books_valid_witness :
    (⟨2, "C", "Z", 0, 4, 0, 0⟩ : Book).Title ≠ "" ∧
    (⟨2, "C", "Z", 0, 4, 0, 0⟩ : Book).Author ≠ "" ∧
    (0 : Int) ≤ (⟨2, "C", "Z", 0, 4, 0, 0⟩ : Book).Available ∧
    (⟨2, "C", "Z", 0, 4, 0, 0⟩ : Book).Available ≤ (⟨2, "C", "Z", 0, 4, 0, 0⟩ : Book).Quantity :=
  persisted_books_valid
    [service.Call.createBook ⟨0, "A", "X", 0, 3, 0, 0⟩,
     service.Call.createBook ⟨0, "B", "Y", 1, 1, 0, 0⟩,
     service.Call.updateBook 2 ⟨9, "C", "Z", 0, 4, 5, 5⟩,
     service.Call.deleteBook 1]
    2 ⟨2, "C", "Z", 0, 4, 0, 0⟩ (by decide)

/-! ### Id allocation -/

theorem uintModulus_pos : 0 < uintModulus := by decide

theorem create_assigned (r : bookRepository) (b : Book) :
    (r.Create b).2.1.ID = r.nextID := rfl

theorem apply_nextID_of_not_create (op : Op) (r : bookRepository)
    (h : op.isCreate = false) : (op.apply r).nextID = r.nextID := by
  cases op with
  | create b => simp [Op.isCreate] at h
  | findByID id =>
    simp only [Op.apply, bookRepository.FindByID]
    split <;> rfl
  | findAll ord => rfl
  | update b =>
    simp only [Op.apply, bookRepository.Update]
    split <;> rfl
  | delete id =>
    simp only [Op.apply, bookRepository.Delete]
    split <;> rfl

theorem assignedIDs_eq_rangeFrom (ops : List Op) (r : bookRepository)
    (h : r.nextID + countCreates ops ≤ uintModulus) :
    assignedIDs ops r = List.range' r.nextID (countCreates ops) := by
  induction ops generalizing r with
  | nil => simp [assignedIDs, countCreates]
  | cons op ops ih =>
    cases hc : op.isCreate with
    | false =>
      have hcount : countCreates (op :: ops) = countCreates ops := by
        simp [countCreates, List.filter_cons, hc]
      have hnil : op.assigned r = [] := by
        cases op <;> simp_all [Op.assigned, Op.isCreate]
      rw [hcount] at h ⊢
      rw [assignedIDs, hnil, List.nil_append,
        ih (op.apply r) (by rw [apply_nextID_of_not_create op r hc]; exact h),
        apply_nextID_of_not_create op r hc]
    | true =>
      obtain ⟨b, rfl⟩ : ∃ b, op = Op.create b := by
        cases op <;> simp_all [Op.isCreate]
      have hcount : countCreates (Op.create b :: ops) = countCreates ops + 1 := by
        simp [countCreates, List.filter_cons, Op.isCreate]
      rw [hcount] at h ⊢
      have hnext : (Op.apply (Op.create b) r).nextID = (r.nextID + 1) % uintModulus := rfl
      rw [assignedIDs, List.range'_succ]
      simp only [Op.assigned, create_assigned, List.singleton_append, List.cons.injEq,
        true_and]
      by_cases hlast : countCreates ops = 0
      · rw [ih _ (by rw [hnext, hlast]; exact (Nat.mod_lt (r.nextID + 1) uintModulus_pos).le), hlast]
        simp
      · have hlt : r.nextID + 1 < uintModulus := by omega
        have hnext1 : (Op.apply (Op.create b) r).nextID = r.nextID + 1 := by
          rw [hnext, Nat.mod_eq_of_lt hlt]
        rw [ih _ (by rw [hnext1]; omega), hnext1]

/-- C4 (amended). For every finite sequence of repository operations on a fresh
in-memory repository that contains fewer than 2^64 Create calls, the ids assigned by
the successive Create calls are 1, 2, 3, ... in call order (the k-th Create gets id k,
whatever id the caller's book carried and whichever Update, Delete or lookup calls
come in between); they are strictly increasing, so no id is assigned twice, even
after it was deleted. -/
theorem assignedIDs_fresh (ops : List Op) (h : countCreates ops < uintModulus) :
    assignedIDs ops NewBookRepository = List.range' 1 (countCreates ops) ∧
    (assignedIDs ops NewBookRepository).Pairwise (fun a b => a < b) ∧
    (assignedIDs ops NewBookRepository).Nodup := by
  have heq : assignedIDs ops NewBookRepository = List.range' 1 (countCreates ops) :=
    assignedIDs_eq_rangeFrom ops NewBookRepository (by simp only [NewBookRepository]; omega)
  rw [heq]
  exact ⟨rfl, List.pairwise_lt_range' 1 _, List.nodup_range' 1 _⟩

/-- C4 (amended), at create, create, delete the first, create: the ids are 1, 2, 3. -/
theorem assignedIDs_fresh_witness :
    assignedIDs
      [Op.create ⟨7, "A", "X", 1, 1, 0, 0⟩, Op.create ⟨7, "B", "Y", 1, 1, 0, 0⟩,
       Op.delete 1, Op.create ⟨1, "C", "Z", 1, 1, 0, 0⟩] NewBookRepository = [1, 2, 3] :=
  (assignedIDs_fresh
    [Op.create ⟨7, "A", "X", 1, 1, 0, 0⟩, Op.create ⟨7, "B", "Y", 1, 1, 0, 0⟩,
     Op.delete 1, Op.create ⟨1, "C", "Z", 1, 1, 0, 0⟩] (by decide)).1

theorem assignedIDs_replicate_create (n : Nat) (b : Book) (r : bookRepository)
    (h : r.nextID < uintModulus) :
    assignedIDs (List.replicate n (Op.create b)) r =
      (List.range n).map (fun k => (r.nextID + k) % uintModulus) := by
  induction n generalizing r with
  | zero => simp [assignedIDs]
  | succ n ih =>
    have hnext : (Op.apply (Op.create b) r).nextID = (r.nextID + 1) % uintModulus := rfl
    rw [List.replicate_succ, assignedIDs, ih _ (by rw [hnext]; exact Nat.mod_lt _ uintModulus_pos),
      hnext, List.range_succ_eq_map, List.map_cons, List.map_map]
    simp only [Op.assigned, create_assigned, List.singleton_append, Nat.add_zero,
      Nat.mod_eq_of_lt h, List.cons.injEq, true_and]
    apply List.map_congr_left
    intro k _
    simp only [Function.comp, Nat.succ_eq_add_one, uintModulus]
    omega

/-- C4, refuted as stated: in a run of 2^64 + 1 Create calls on a fresh in-memory
repository the counter wraps around. The 2^64-th Create is assigned id 0 (not 2^64,
and not above its predecessors), and the last Create is assigned the id 1 that the
first Create was assigned; the assigned ids are not free of repetition. -/
theorem assignedIDs_reused :
    (assignedIDs (List.replicate (2 ^ 64 + 1) (Op.create ⟨0, "A", "X", 1, 1, 0, 0⟩))
      NewBookRepository)[0]? = some 1 ∧
    (assignedIDs (List.replicate (2 ^ 64 + 1) (Op.create ⟨0, "A", "X", 1, 1, 0, 0⟩))
      NewBookRepository)[2 ^ 64 - 1]? = some 0 ∧
    (assignedIDs (List.replicate (2 ^ 64 + 1) (Op.create ⟨0, "A", "X", 1, 1, 0, 0⟩))
      NewBookRepository)[2 ^ 64]? = some 1 ∧
    ¬ (assignedIDs (List.replicate (2 ^ 64 + 1) (Op.create ⟨0, "A", "X", 1, 1, 0, 0⟩))
      NewBookRepository).Nodup := by
  have h1 : NewBookRepository.nextID < uintModulus := by decide
  rw [assignedIDs_replicate_create _ _ _ h1]
  have e0 : ((List.range (2 ^ 64 + 1)).map
      (fun k => (NewBookRepository.nextID + k) % uintModulus))[0]? = some 1 := by
    rw [List.getElem?_map, List.getElem?_range (by norm_num)]
    rfl
  have e1 : ((List.range (2 ^ 64 + 1)).map
      (fun k => (NewBookRepository.nextID + k) % uintModulus))[2 ^ 64]? = some 1 := by
    rw [List.getElem?_map, List.getElem?_range (by norm_num)]
    simp [NewBookRepository, uintModulus]
  have e2 : ((List.range (2 ^ 64 + 1)).map
      (fun k => (NewBookRepository.nextID + k) % uintModulus))[2 ^ 64 - 1]? = some 0 := by
    rw [List.getElem?_map, List.getElem?_range (by norm_num)]
    simp [NewBookRepository, uintModulus]
  refine ⟨e0, e2, e1, fun hnd => ?_⟩
  have := List.nodup_iff_getElem?_ne_getElem?.1 hnd 0 (2 ^ 64) (by norm_num)
    (by simp)
  exact this (e0.trans e1.symm)

/-! ### Create, then read -/

/-- C5. Create/read round trip: whenever service CreateBook succeeds on book b, an
immediately following GetBook with the id assigned to b succeeds, leaves the store as
it is, and returns a record with that id whose title, author and quantity are those
of b and whose available equals the quantity of b. -/
theorem createBook_getBook_roundtrip (r : bookRepository) (b : Book)
    (h : (service.CreateBook inmemory.repo r b).2.2 = none) :
    ∃ found : Book,
      service.GetBook inmemory.repo (service.CreateBook inmemory.repo r b).1
          (service.CreateBook inmemory.repo r b).2.1.ID =
        ((service.CreateBook inmemory.repo r b).1, Except.ok found) ∧
      found.ID = (service.CreateBook inmemory.repo r b).2.1.ID ∧
      found.Title = b.Title ∧ found.Author = b.Author ∧
      found.Quantity = b.Quantity ∧ found.Available = b.Quantity := by
  have hv := (createBook_ok_iff r b).1 h
  rw [createBook_of_valid r b hv, getBook_eq]
  simp

/-- C5, at the scenario of the spec: quantity 3 with available 0 on a fresh store. -/
theorem createBook_getBook_roundtrip_witness :
    ∃ found : Book,
      service.GetBook inmemory.repo
          (service.CreateBook inmemory.repo NewBookRepository ⟨0, "A", "X", 0, 3, 0, 0⟩).1
          (service.CreateBook inmemory.repo NewBookRepository ⟨0, "A", "X", 0, 3, 0, 0⟩).2.1.ID =
        ((service.CreateBook inmemory.repo NewBookRepository ⟨0, "A", "X", 0, 3, 0, 0⟩).1,
          Except.ok found) ∧
      found.ID = (service.CreateBook inmemory.repo NewBookRepository
          ⟨0, "A", "X", 0, 3, 0, 0⟩).2.1.ID ∧
      found.Title = "A" ∧ found.Author = "X" ∧ found.Quantity = 3 ∧ found.Available = 3 :=
  createBook_getBook_roundtrip NewBookRepository ⟨0, "A", "X", 0, 3, 0, 0⟩ (by decide)

/-! ### Records carry their key -/

theorem idsMatchKeys_iff (r : bookRepository) :
    idsMatchKeys r ↔ ∀ k b, r.books.lookup k = some b → b.ID = k := by
  constructor
  · intro h k b hk
    exact h ⟨k, b⟩ (AList.mem_lookup_iff.1 hk)
  · intro h e he
    exact h e.1 e.2 (AList.mem_lookup_iff.2 he)

theorem idsMatchKeys_apply (op : Op) (r : bookRepository) (h : idsMatchKeys r) :
    idsMatchKeys (op.apply r) := by
  rw [idsMatchKeys_iff] at h ⊢
  cases op with
  | create book =>
    intro k b hk
    simp only [Op.apply, bookRepository.Create, lookup_insert_eq_ite] at hk
    split_ifs at hk with hka
    · cases hk; exact hka.symm
    · exact h k b hk
  | findByID id =>
    simp only [Op.apply, bookRepository.FindByID]
    split <;> exact h
  | findAll ord => exact h
  | update book =>
    simp only [Op.apply, bookRepository.Update]
    split
    · exact h
    · intro k b hk
      simp only [lookup_insert_eq_ite] at hk
      split_ifs at hk with hka
      · cases hk; exact hka.symm
      · exact h k b hk
  | delete id =>
    simp only [Op.apply, bookRepository.Delete]
    split
    · exact h
    · intro k b hk
      simp only [lookup_erase_eq_ite] at hk
      split_ifs at hk with hka
      exact h k b hk

theorem idsMatchKeys_runOps (ops : List Op) (r : bookRepository) (h : idsMatchKeys r) :
    idsMatchKeys (runOps ops r) := by
  induction ops generalizing r with
  | nil => exact h
  | cons op ops ih => exact ih _ (idsMatchKeys_apply op r h)

theorem idsMatchKeys_of_reachable (r : bookRepository) (hr : Reachable r) :
    idsMatchKeys r := by
  obtain ⟨ops, rfl⟩ := hr
  apply idsMatchKeys_runOps
  intro e he
  simp [NewBookRepository] at he

/-! ### Update -/

theorem validate_ne_not_found (b : Book) : b.Validate ≠ some "book not found" := by
  unfold Book.Validate
  split_ifs <;> decide

theorem updateBook_of_valid_keyed (r : bookRepository) (id : Nat) (u e : Book)
    (h : r.books.lookup id = some e) (hid : e.ID = id) (hv : u.Validate = none) :
    service.UpdateBook inmemory.repo r id u =
      ({ books := r.books.insert id
            ({ e with Title := u.Title, Author := u.Author, Quantity := u.Quantity,
                      Available := u.Available } : Book),
         nextID := r.nextID }, none) := by
  rw [updateBook_of_valid r id u e h hv]
  subst hid
  simp [bookRepository.Update, h]

/-- C6. On every reachable in-memory store state, service UpdateBook(id, u) returns
"book not found" exactly when no record is stored under id, whatever u contains; when a
record is stored under id, the error it returns is the result of Validate on that
record with title, author, quantity and available overwritten by those of u: Validate's
message when these four fields are invalid, and no error otherwise. -/
theorem updateBook_error (r : bookRepository) (hr : Reachable r) (id : Nat) (u : Book) :
    ((service.UpdateBook inmemory.repo r id u).2 = some "book not found" ↔
      r.books.lookup id = none) ∧
    (∀ e : Book, r.books.lookup id = some e →
      (service.UpdateBook inmemory.repo r id u).2 =
        ({ e with Title := u.Title, Author := u.Author, Quantity := u.Quantity,
                  Available := u.Available } : Book).Validate) := by
  have hkeys := (idsMatchKeys_iff r).1 (idsMatchKeys_of_reachable r hr)
  have hstored : ∀ e : Book, r.books.lookup id = some e →
      (service.UpdateBook inmemory.repo r id u).2 = u.Validate := by
    intro e he
    cases hv : u.Validate with
    | some err => rw [updateBook_of_invalid r id u e err he hv]
    | none => rw [updateBook_of_valid_keyed r id u e he (hkeys id e he) hv]
  refine ⟨⟨fun h => ?_, fun h => ?_⟩, fun e he => ?_⟩
  · cases he : r.books.lookup id with
    | none => rfl
    | some e =>
      rw [hstored e he] at h
      exact absurd h (validate_ne_not_found u)
  · rw [updateBook_of_absent r id u h]
  · exact (hstored e he).trans (validate_overwritten e u).symm

/-- C6, at the scenario of the spec: a store holding one book with quantity 2 and
available 2, updated with quantity 1 and available 5. -/
theorem updateBook_error_witness :
    (service.UpdateBook inmemory.repo
      (runOps [Op.create ⟨0, "A", "X", 2, 2, 0, 0⟩] NewBookRepository) 1
      ⟨0, "A", "X", 5, 1, 0, 0⟩).2 =
    some "quantity is always more or equal to availability" :=
  ((updateBook_error (runOps [Op.create ⟨0, "A", "X", 2, 2, 0, 0⟩] NewBookRepository)
      ⟨[Op.create ⟨0, "A", "X", 2, 2, 0, 0⟩], rfl⟩ 1 ⟨0, "A", "X", 5, 1, 0, 0⟩).2
    ⟨1, "A", "X", 2, 2, 0, 0⟩ (by decide)).trans (by decide)

/-- C7. On every reachable in-memory store state, whenever service UpdateBook(id, u)
succeeds, a record was stored under id, and the record stored under id afterwards is
that record with title, author, quantity and available replaced by those of u: it keeps
its id (equal to the key id; an id carried in u is ignored) and its timestamps. Every
other stored record and the id counter are unchanged. -/
theorem updateBook_frame (r : bookRepository) (hr : Reachable r) (id : Nat) (u : Book)
    (h : (service.UpdateBook inmemory.repo r id u).2 = none) :
    ∃ old : Book,
      r.books.lookup id = some old ∧ old.ID = id ∧
      (service.UpdateBook inmemory.repo r id u).1.books.lookup id =
        some { ID := old.ID, Title := u.Title, Author := u.Author,
               Available := u.Available, Quantity := u.Quantity,
               CreatedAt := old.CreatedAt, UpdatedAt := old.UpdatedAt } ∧
      (∀ k : Nat, k ≠ id →
        (service.UpdateBook inmemory.repo r id u).1.books.lookup k = r.books.lookup k) ∧
      (service.UpdateBook inmemory.repo r id u).1.nextID = r.nextID := by
  have hkeys := (idsMatchKeys_iff r).1 (idsMatchKeys_of_reachable r hr)
  cases he : r.books.lookup id with
  | none =>
    rw [updateBook_of_absent r id u he] at h
    simp at h
  | some e =>
    cases hv : u.Validate with
    | some err =>
      rw [updateBook_of_invalid r id u e err he hv] at h
      simp at h
    | none =>
      rw [updateBook_of_valid_keyed r id u e he (hkeys id e he) hv]
      refine ⟨e, rfl, hkeys id e he, ?_, ?_, rfl⟩
      · simp
      · intro k hk
        simp [lookup_insert_eq_ite, hk]

/-- C7, at a store of two books: updating the first with a body that carries id 9. -/
theorem updateBook_frame_witness :
    ∃ old : Book,
      (runOps [Op.create ⟨0, "A", "X", 2, 2, 5, 6⟩, Op.create ⟨0, "B", "Y", 1, 1, 0, 0⟩]
        NewBookRepository).books.lookup 1 = some old ∧ old.ID = 1 ∧
      (service.UpdateBook inmemory.repo
        (runOps [Op.create ⟨0, "A", "X", 2, 2, 5, 6⟩, Op.create ⟨0, "B", "Y", 1, 1, 0, 0⟩]
          NewBookRepository) 1 ⟨9, "C", "Z", 0, 4, 7, 8⟩).1.books.lookup 1 =
        some { ID := old.ID, Title := "C", Author := "Z", Available := 0, Quantity := 4,
               CreatedAt := old.CreatedAt, UpdatedAt := old.UpdatedAt } ∧
      (∀ k : Nat, k ≠ 1 →
        (service.UpdateBook inmemory.repo
          (runOps [Op.create ⟨0, "A", "X", 2, 2, 5, 6⟩, Op.create ⟨0, "B", "Y", 1, 1, 0, 0⟩]
            NewBookRepository) 1 ⟨9, "C", "Z", 0, 4, 7, 8⟩).1.books.lookup k =
        (runOps [Op.create ⟨0, "A", "X", 2, 2, 5, 6⟩, Op.create ⟨0, "B", "Y", 1, 1, 0, 0⟩]
          NewBookRepository).books.lookup k) ∧
      (service.UpdateBook inmemory.repo
        (runOps [Op.create ⟨0, "A", "X", 2, 2, 5, 6⟩, Op.create ⟨0, "B", "Y", 1, 1, 0, 0⟩]
          NewBookRepository) 1 ⟨9, "C", "Z", 0, 4, 7, 8⟩).1.nextID =
        (runOps [Op.create ⟨0, "A", "X", 2, 2, 5, 6⟩, Op.create ⟨0, "B", "Y", 1, 1, 0, 0⟩]
          NewBookRepository).nextID :=
  updateBook_frame
    (runOps [Op.create ⟨0, "A", "X", 2, 2, 5, 6⟩, Op.create ⟨0, "B", "Y", 1, 1, 0, 0⟩]
      NewBookRepository)
    ⟨[Op.create ⟨0, "A", "X", 2, 2, 5, 6⟩, Op.create ⟨0, "B", "Y", 1, 1, 0, 0⟩], rfl⟩
    1 ⟨9, "C", "Z", 0, 4, 7, 8⟩ (by decide)

/-! ### Delete and lookup -/

/-- C8. Double delete: whenever service DeleteBook(id) succeeds on an in-memory store,
an immediately following DeleteBook(id) fails with "book not present or already
deleted" and changes nothing, and GetBook(id) fails with "book not found". -/
theorem deleteBook_twice (r : bookRepository) (id : Nat)
    (h : (service.DeleteBook inmemory.repo r id).2 = none) :
    service.DeleteBook inmemory.repo (service.DeleteBook inmemory.repo r id).1 id =
      ((service.DeleteBook inmemory.repo r id).1,
        some "book not present or already deleted") ∧
    service.GetBook inmemory.repo (service.DeleteBook inmemory.repo r id).1 id =
      ((service.DeleteBook inmemory.repo r id).1, Except.error "book not found") := by
  have hgone : (service.DeleteBook inmemory.repo r id).1.books.lookup id = none := by
    rw [deleteBook_eq] at h ⊢
    cases he : r.books.lookup id with
    | none => rw [he] at h; simp at h
    | some e => simp
  constructor
  · rw [deleteBook_eq (service.DeleteBook inmemory.repo r id).1, hgone]
  · rw [getBook_eq (service.DeleteBook inmemory.repo r id).1, hgone]

/-- C8, at the scenario of the spec: create a book, delete it, delete it again. -/
theorem deleteBook_twice_witness :
    (service.DeleteBook inmemory.repo (service.DeleteBook inmemory.repo
      (service.CreateBook inmemory.repo NewBookRepository ⟨0, "A", "X", 1, 1, 0, 0⟩).1 1).1 1).2 =
      some "book not present or already deleted" :=
  congrArg Prod.snd (deleteBook_twice
    (service.CreateBook inmemory.repo NewBookRepository ⟨0, "A", "X", 1, 1, 0, 0⟩).1 1
    (by decide)).1

/-- C9. On every in-memory store state and id, the store's FindByID and the service's
GetBook fail, with the error "book not found", exactly when no record is stored under
id; when a record is stored under id they return a book equal to it in every field; in
both cases the store is left as it was. On a store with no records every lookup fails. -/
theorem findByID_spec (r : bookRepository) (id : Nat) :
    ((r.FindByID id).2 = Except.error "book not found" ↔ r.books.lookup id = none) ∧
    ((∃ msg, (r.FindByID id).2 = Except.error msg) ↔ r.books.lookup id = none) ∧
    (∀ b : Book, r.books.lookup id = some b → (r.FindByID id).2 = Except.ok b) ∧
    (r.FindByID id).1 = r ∧
    ((service.GetBook inmemory.repo r id).2 = Except.error "book not found" ↔
      r.books.lookup id = none) ∧
    ((∃ msg, (service.GetBook inmemory.repo r id).2 = Except.error msg) ↔
      r.books.lookup id = none) ∧
    (∀ b : Book, r.books.lookup id = some b →
      (service.GetBook inmemory.repo r id).2 = Except.ok b) ∧
    (service.GetBook inmemory.repo r id).1 = r ∧
    (∀ n : Nat,
      (bookRepository.FindByID { books := ∅, nextID := n } id).2 =
        Except.error "book not found" ∧
      (service.GetBook inmemory.repo { books := ∅, nextID := n } id).2 =
        Except.error "book not found") := by
  have hempty : ∀ n : Nat,
      (bookRepository.FindByID { books := ∅, nextID := n } id).2 =
        Except.error "book not found" ∧
      (service.GetBook inmemory.repo { books := ∅, nextID := n } id).2 =
        Except.error "book not found" := by
    intro n
    simp [getBook_eq, bookRepository.FindByID]
  have hfind : r.FindByID id =
      (r, match r.books.lookup id with
          | none => Except.error "book not found"
          | some b => Except.ok b) := by
    unfold bookRepository.FindByID
    cases r.books.lookup id <;> rfl
  rw [getBook_eq, hfind]
  refine ⟨?_, ?_, ?_, rfl, ?_, ?_, ?_, rfl, hempty⟩ <;>
    cases r.books.lookup id <;> simp

/-- C9, at the scenario of the spec (id 999 on the empty store) and at a stored record. -/
theorem findByID_spec_witness :
    (service.GetBook inmemory.repo NewBookRepository 999).2 =
      Except.error "book not found" ∧
    (service.GetBook inmemory.repo
      (service.CreateBook inmemory.repo NewBookRepository ⟨0, "A", "X", 0, 3, 0, 0⟩).1 1).2 =
      Except.ok ⟨1, "A", "X", 3, 3, 0, 0⟩ :=
  ⟨((findByID_spec NewBookRepository 999).2.2.2.2.2.2.2.2 1).2,
   (findByID_spec
      (service.CreateBook inmemory.repo NewBookRepository ⟨0, "A", "X", 0, 3, 0, 0⟩).1
      1).2.2.2.2.2.2.1 ⟨1, "A", "X", 3, 3, 0, 0⟩ (by decide)⟩

/-! ### Listing -/

theorem foldl_append_copies (l : List (Sigma fun _ : Nat => Book)) (init : List Book) :
    l.foldl (fun acc e => acc ++ [e.2]) init = init ++ l.map (fun e => e.2) := by
  induction l generalizing init with
  | nil => simp
  | cons e l ih => simp [ih]

theorem rangeOrder_perm (m : AList (fun _ : Nat => Book)) (ord : Nat) :
    (rangeOrder m ord).Perm m.entries := by
  unfold rangeOrder
  rw [List.getD_eq_getElem?_getD]
  cases h : m.entries.permutations[ord]? with
  | none => exact List.Perm.refl _
  | some visit => exact List.mem_permutations.1 (List.getElem?_mem h)

theorem rangeOrder_complete (m : AList (fun _ : Nat => Book))
    (visit : List (Sigma fun _ : Nat => Book)) (h : visit.Perm m.entries) :
    ∃ ord : Nat, rangeOrder m ord = visit := by
  obtain ⟨n, hn⟩ := List.getElem?_of_mem (List.mem_permutations.2 h)
  exact ⟨n, by unfold rangeOrder; rw [List.getD_eq_getElem?_getD, hn]; rfl⟩

theorem findAll_eq (r : bookRepository) (ord : Nat) :
    r.FindAll ord = (r, Except.ok ((rangeOrder r.books ord).map (fun e => e.2))) := by
  simp [bookRepository.FindAll, foldl_append_copies]

theorem getAllBooks_eq (r : bookRepository) (ord : Nat) :
    service.GetAllBooks inmemory.repo r ord =
      (r, Except.ok ((rangeOrder r.books ord).map (fun e => e.2))) :=
  findAll_eq r ord

theorem length_entries_eq_keys (m : AList (fun _ : Nat => Book)) :
    m.entries.length = m.keys.length := by
  simp [AList.keys, List.keys]

theorem callErrors_createBook (bs : List Book) (r : bookRepository) :
    service.callErrors inmemory.repo (bs.map service.Call.createBook) r =
      bs.map (fun b => b.Validate) := by
  induction bs generalizing r with
  | nil => rfl
  | cons b bs ih =>
    simp only [List.map_cons, service.callErrors, ih, List.cons.injEq, and_true]
    cases hv : b.Validate with
    | none => simp [service.Call.run, createBook_of_valid r b hv]
    | some e => simp [service.Call.run, createBook_of_invalid r b e hv]

theorem run_createBook_of_valid (r : bookRepository) (b : Book) (hv : b.Validate = none) :
    ((service.Call.createBook b).run inmemory.repo r).1 =
      { books := r.books.insert r.nextID { b with Available := b.Quantity, ID := r.nextID },
        nextID := (r.nextID + 1) % uintModulus } := by
  simp [service.Call.run, createBook_of_valid r b hv]

theorem keys_length_createAll (bs : List Book) (r : bookRepository) (k : Nat)
    (hlen : r.books.keys.length = k) (hnext : r.nextID = (k + 1) % uintModulus)
    (hkeys : ∀ key ∈ r.books.keys, ∃ j, j < k ∧ key = (j + 1) % uintModulus)
    (hroom : k + bs.length ≤ uintModulus) (hvalid : ∀ b ∈ bs, b.Validate = none) :
    (service.runCalls inmemory.repo (bs.map service.Call.createBook) r).books.keys.length =
      k + bs.length := by
  induction bs generalizing r k with
  | nil => simpa [service.runCalls] using hlen
  | cons b bs ih =>
    have hv : b.Validate = none := hvalid b (List.mem_cons_self _ _)
    have hk1 : k + 1 ≤ uintModulus := by
      simp only [List.length_cons] at hroom; omega
    have hfresh : r.nextID ∉ r.books.keys := by
      intro hin
      obtain ⟨j, hj, hjk⟩ := hkeys _ hin
      rw [hnext] at hjk
      simp only [uintModulus] at hjk hk1
      omega
    simp only [List.map_cons, service.runCalls, run_createBook_of_valid r b hv]
    rw [ih _ (k + 1)]
    · simp only [List.length_cons]; omega
    · simp only [AList.keys_insert, List.erase_of_not_mem hfresh, List.length_cons, hlen]
    · simp only [hnext, uintModulus]; omega
    · intro key hkey
      simp only [AList.keys_insert, List.erase_of_not_mem hfresh, List.mem_cons] at hkey
      rcases hkey with rfl | hkey
      · exact ⟨k, by omega, hnext⟩
      · obtain ⟨j, hj, hjk⟩ := hkeys key hkey
        exact ⟨j, by omega, hjk⟩
    · simp only [List.length_cons] at hroom; omega
    · exact fun b1 hb1 => hvalid b1 (List.mem_cons_of_mem _ hb1)

theorem handler_getAllBooks_eq (r : bookRepository) (ord : Nat) :
    handler.GetAllBooks inmemory.repo r ord =
      (r, { status := 200,
            body := [("data", handler.Value.books
                        ((rangeOrder r.books ord).map (fun e => e.2))),
                     ("count", handler.Value.int
                        (((rangeOrder r.books ord).map (fun e => e.2)).length : Nat))] }) := by
  simp only [handler.GetAllBooks, getAllBooks_eq]
  rfl

/-- C10. On every in-memory store state GetAllBooks succeeds, leaves the store as it
is, and returns the stored records in the order the map is visited: a permutation of
the stored records, one element per stored id, each equal to the stored record. The
handler replies 200 with that sequence as data and with count equal to the number of
stored books. After N successful CreateBook calls on a fresh store the result has
length N and the handler reports count N; here N is at most 2^64, which every length
a run of the program can have satisfies (a Go length is an int). -/
theorem getAllBooks_spec (r : bookRepository) (ord : Nat) :
    (∃ (visit : List (Sigma fun _ : Nat => Book)) (out : List Book),
      visit.Perm r.books.entries ∧ out = visit.map (fun e => e.2) ∧
      service.GetAllBooks inmemory.repo r ord = (r, Except.ok out) ∧
      out.Perm (r.books.entries.map (fun e => e.2)) ∧
      out.length = r.books.keys.length ∧
      (∀ b : Book, b ∈ out ↔ ∃ k : Nat, r.books.lookup k = some b) ∧
      handler.GetAllBooks inmemory.repo r ord =
        (r, { status := 200,
              body := [("data", handler.Value.books out),
                       ("count", handler.Value.int (r.books.keys.length : Nat))] })) ∧
    (∀ bs : List Book, bs.length ≤ uintModulus →
      (∀ e ∈ service.callErrors inmemory.repo (bs.map service.Call.createBook)
          NewBookRepository, e = none) →
      ∃ out : List Book,
        service.GetAllBooks inmemory.repo
            (service.runCalls inmemory.repo (bs.map service.Call.createBook)
              NewBookRepository) ord =
          (service.runCalls inmemory.repo (bs.map service.Call.createBook)
              NewBookRepository, Except.ok out) ∧
        out.length = bs.length ∧
        handler.GetAllBooks inmemory.repo
            (service.runCalls inmemory.repo (bs.map service.Call.createBook)
              NewBookRepository) ord =
          (service.runCalls inmemory.repo (bs.map service.Call.createBook)
              NewBookRepository,
            { status := 200,
              body := [("data", handler.Value.books out),
                       ("count", handler.Value.int (bs.length : Nat))] })) := by
  have hlen : ∀ s : bookRepository,
      ((rangeOrder s.books ord).map (fun e => e.2)).length = s.books.keys.length := by
    intro s
    rw [List.length_map, (rangeOrder_perm s.books ord).length_eq, length_entries_eq_keys]
  constructor
  · refine ⟨rangeOrder r.books ord, _, rangeOrder_perm r.books ord, rfl, ?_,
      (rangeOrder_perm r.books ord).map _, hlen r, fun b => ?_, ?_⟩
    · exact getAllBooks_eq r ord
    · simp only [List.mem_map, (rangeOrder_perm r.books ord).mem_iff]
      constructor
      · rintro ⟨e, he, rfl⟩
        exact ⟨e.1, AList.mem_lookup_iff.2 he⟩
      · rintro ⟨k, hk⟩
        exact ⟨⟨k, b⟩, AList.mem_lookup_iff.1 hk, rfl⟩
    · rw [handler_getAllBooks_eq, hlen]
  · intro bs hN hok
    have hvalid : ∀ b ∈ bs, b.Validate = none := by
      intro b hb
      apply hok
      rw [callErrors_createBook]
      exact List.mem_map.2 ⟨b, hb, rfl⟩
    have hkeys := keys_length_createAll bs NewBookRepository 0 rfl rfl
      (by intro key hkey; simp [NewBookRepository] at hkey) (by omega) hvalid
    have hcount : ((rangeOrder (service.runCalls inmemory.repo
        (bs.map service.Call.createBook) NewBookRepository).books ord).map
          (fun e => e.2)).length = bs.length := by
      rw [hlen]
      simpa using hkeys
    refine ⟨_, getAllBooks_eq _ ord, hcount, ?_⟩
    rw [handler_getAllBooks_eq, hcount]

/-- C10, at a fresh store after two successful CreateBook calls: the listing has
length 2 and the handler reports count 2. -/
theorem getAllBooks_spec_witness :
    ∃ out : List Book,
      service.GetAllBooks inmemory.repo
          (service.runCalls inmemory.repo
            ([⟨0, "A", "X", 0, 3, 0, 0⟩, ⟨0, "B", "Y", 1, 1, 0, 0⟩].map
              service.Call.createBook) NewBookRepository) 1 =
        (service.runCalls inmemory.repo
            ([⟨0, "A", "X", 0, 3, 0, 0⟩, ⟨0, "B", "Y", 1, 1, 0, 0⟩].map
              service.Call.createBook) NewBookRepository, Except.ok out) ∧
      out.length = [(⟨0, "A", "X", 0, 3, 0, 0⟩ : Book), ⟨0, "B", "Y", 1, 1, 0, 0⟩].length ∧
      handler.GetAllBooks inmemory.repo
          (service.runCalls inmemory.repo
            ([⟨0, "A", "X", 0, 3, 0, 0⟩, ⟨0, "B", "Y", 1, 1, 0, 0⟩].map
              service.Call.createBook) NewBookRepository) 1 =
        (service.runCalls inmemory.repo
            ([⟨0, "A", "X", 0, 3, 0, 0⟩, ⟨0, "B", "Y", 1, 1, 0, 0⟩].map
              service.Call.createBook) NewBookRepository,
          { status := 200,
            body := [("data", handler.Value.books out),
                     ("count", handler.Value.int
                        ([(⟨0, "A", "X", 0, 3, 0, 0⟩ : Book),
                          ⟨0, "B", "Y", 1, 1, 0, 0⟩].length : Nat))] }) :=
  (getAllBooks_spec NewBookRepository 1).2
    [⟨0, "A", "X", 0, 3, 0, 0⟩, ⟨0, "B", "Y", 1, 1, 0, 0⟩] (by decide) (by decide)

/-! ### The order of Validate's checks, and CreateBook's use of it -/

/-- C15. Validate reports the first violated rule in the order title, author, negative
available, available above quantity: "title is mandatory" whenever the title is empty,
"author is mandatory" when the title is non-empty and the author is empty,
"availability can not be negative" when both are non-empty and available < 0, and
"quantity is always more or equal to availability" when both are non-empty,
available >= 0 and available > quantity. -/
theorem validate_first_violation (b : Book) :
    (b.Title = "" → b.Validate = some "title is mandatory") ∧
    (b.Title ≠ "" → b.Author = "" → b.Validate = some "author is mandatory") ∧
    (b.Title ≠ "" → b.Author ≠ "" → b.Available < 0 →
      b.Validate = some "availability can not be negative") ∧
    (b.Title ≠ "" → b.Author ≠ "" → 0 ≤ b.Available → b.Available > b.Quantity →
      b.Validate = some "quantity is always more or equal to availability") := by
  refine ⟨fun h1 => ?_, fun h1 h2 => ?_, fun h1 h2 h3 => ?_, fun h1 h2 h3 h4 => ?_⟩
  · simp [Book.Validate, h1]
  · simp [Book.Validate, h1, h2]
  · simp [Book.Validate, h1, h2, h3]
  · simp [Book.Validate, h1, h2, not_lt.2 h3, h4]

/-- C15, at the scenario of the spec (empty title, everything else in order) and at a
book that breaks every rule at once. -/
theorem validate_first_violation_witness :
    (⟨0, "", "X", 1, 1, 0, 0⟩ : Book).Validate = some "title is mandatory" ∧
    (⟨0, "", "", -1, -2, 0, 0⟩ : Book).Validate = some "title is mandatory" ∧
    (⟨0, "A", "X", 5, 3, 0, 0⟩ : Book).Validate =
      some "quantity is always more or equal to availability" :=
  ⟨(validate_first_violation ⟨0, "", "X", 1, 1, 0, 0⟩).1 rfl,
   (validate_first_violation ⟨0, "", "", -1, -2, 0, 0⟩).1 rfl,
   (validate_first_violation ⟨0, "A", "X", 5, 3, 0, 0⟩).2.2.2
     (by decide) (by decide) (by decide) (by decide)⟩

theorem createBook_error_eq (r : bookRepository) (b : Book) :
    (service.CreateBook inmemory.repo r b).2.2 = b.Validate := by
  cases hv : b.Validate with
  | none => rw [createBook_of_valid r b hv]
  | some e => rw [createBook_of_invalid r b e hv]

/-- C17. Over the in-memory store, the error of service CreateBook is the result of
Validate on the book exactly as the caller submitted it, so CreateBook fails if and
only if that validation fails: a book with non-empty title and author and quantity >= 0
is rejected when the submitted available is negative or above quantity, and accepted
for every submitted available from 0 to quantity. -/
theorem createBook_fails_iff_validate (r : bookRepository) (b : Book) :
    (service.CreateBook inmemory.repo r b).2.2 = b.Validate ∧
    ((service.CreateBook inmemory.repo r b).2.2 ≠ none ↔ b.Validate ≠ none) ∧
    (b.Title ≠ "" → b.Author ≠ "" → 0 ≤ b.Quantity →
      (b.Available < 0 ∨ b.Quantity < b.Available) →
      (service.CreateBook inmemory.repo r b).2.2 ≠ none) ∧
    (b.Title ≠ "" → b.Author ≠ "" → 0 ≤ b.Available → b.Available ≤ b.Quantity →
      (service.CreateBook inmemory.repo r b).2.2 = none) := by
  rw [createBook_error_eq]
  refine ⟨rfl, Iff.rfl, fun h1 h2 _ h4 hv => ?_, fun h1 h2 h3 h4 => ?_⟩
  · have := (validate_passes_iff b).1 hv
    omega
  · exact (validate_passes_iff b).2 ⟨h1, h2, h3, h4⟩

/-- C17, at quantity 3 with available 5 submitted (rejected) and with available 2
submitted (accepted), on a fresh store. -/
theorem createBook_fails_iff_validate_witness :
    (service.CreateBook inmemory.repo NewBookRepository ⟨0, "A", "X", 5, 3, 0, 0⟩).2.2 =
      some "quantity is always more or equal to availability" ∧
    (service.CreateBook inmemory.repo NewBookRepository ⟨0, "A", "X", 5, 3, 0, 0⟩).2.2 ≠
      none ∧
    (service.CreateBook inmemory.repo NewBookRepository ⟨0, "A", "X", 2, 3, 0, 0⟩).2.2 = none :=
  ⟨(createBook_fails_iff_validate NewBookRepository ⟨0, "A", "X", 5, 3, 0, 0⟩).1.trans
      (by decide),
   (createBook_fails_iff_validate NewBookRepository ⟨0, "A", "X", 5, 3, 0, 0⟩).2.2.1
      (by decide) (by decide) (by decide) (Or.inr (by decide)),
   (createBook_fails_iff_validate NewBookRepository ⟨0, "A", "X", 2, 3, 0, 0⟩).2.2.2
      (by decide) (by decide) (by decide) (by decide)⟩

/-! ### Delete, and what a failed call leaves behind -/

/-- C16. On every in-memory store state, service DeleteBook(id) succeeds if and only
if a record is stored under id. On success that record is gone, every other stored
record and the id counter are as before. Once the service's FindByID probe has
succeeded, the store's Delete does not take its not-found branch: it returns no
error, and DeleteBook never returns the store's "book not found". -/
theorem deleteBook_frame (r : bookRepository) (id : Nat) :
    ((service.DeleteBook inmemory.repo r id).2 = none ↔ r.books.lookup id ≠ none) ∧
    ((service.DeleteBook inmemory.repo r id).2 = none →
      (service.DeleteBook inmemory.repo r id).1.books.lookup id = none ∧
      (∀ k : Nat, k ≠ id →
        (service.DeleteBook inmemory.repo r id).1.books.lookup k = r.books.lookup k) ∧
      (service.DeleteBook inmemory.repo r id).1.nextID = r.nextID) ∧
    (∀ b : Book, (r.FindByID id).2 = Except.ok b →
      (bookRepository.Delete (r.FindByID id).1 id).2 = none) ∧
    (service.DeleteBook inmemory.repo r id).2 ≠ some "book not found" := by
  rw [deleteBook_eq]
  unfold bookRepository.FindByID bookRepository.Delete
  cases he : r.books.lookup id with
  | none => simp
  | some e =>
    simp only [he, ne_eq, reduceCtorEq, not_false_eq_true, true_iff, forall_true_left,
      AList.lookup_erase, true_and, implies_true, and_true]
    intro k hk
    simp [lookup_erase_eq_ite, hk]

/-- C16, at a store of two books from which the first is deleted. -/
theorem deleteBook_frame_witness :
    (service.DeleteBook inmemory.repo
      (runOps [Op.create ⟨0, "A", "X", 2, 2, 0, 0⟩, Op.create ⟨0, "B", "Y", 1, 1, 0, 0⟩]
        NewBookRepository) 1).1.books.lookup 1 = none ∧
    (∀ k : Nat, k ≠ 1 →
      (service.DeleteBook inmemory.repo
        (runOps [Op.create ⟨0, "A", "X", 2, 2, 0, 0⟩, Op.create ⟨0, "B", "Y", 1, 1, 0, 0⟩]
          NewBookRepository) 1).1.books.lookup k =
      (runOps [Op.create ⟨0, "A", "X", 2, 2, 0, 0⟩, Op.create ⟨0, "B", "Y", 1, 1, 0, 0⟩]
        NewBookRepository).books.lookup k) ∧
    (service.DeleteBook inmemory.repo
      (runOps [Op.create ⟨0, "A", "X", 2, 2, 0, 0⟩, Op.create ⟨0, "B", "Y", 1, 1, 0, 0⟩]
        NewBookRepository) 1).1.nextID =
    (runOps [Op.create ⟨0, "A", "X", 2, 2, 0, 0⟩, Op.create ⟨0, "B", "Y", 1, 1, 0, 0⟩]
      NewBookRepository).nextID :=
  (deleteBook_frame
    (runOps [Op.create ⟨0, "A", "X", 2, 2, 0, 0⟩, Op.create ⟨0, "B", "Y", 1, 1, 0, 0⟩]
      NewBookRepository) 1).2.1 (by decide)

theorem update_error_keeps_store (r : bookRepository) (b : Book)
    (h : (r.Update b).2 ≠ none) : (r.Update b).1 = r := by
  unfold bookRepository.Update at h ⊢
  split
  · rfl
  · rename_i hl
    simp [hl] at h

/-- C18. Atomicity on error: whenever a service call (CreateBook, GetBook, GetAllBooks,
UpdateBook, DeleteBook) on an in-memory store returns an error, the store after the
call is the store before it, map and id counter alike. -/
theorem failed_call_keeps_store (c : service.Call) (r : bookRepository)
    (h : (c.run inmemory.repo r).2 ≠ none) :
    (c.run inmemory.repo r).1 = r ∧
    (c.run inmemory.repo r).1.books = r.books ∧
    (c.run inmemory.repo r).1.nextID = r.nextID := by
  have key : (c.run inmemory.repo r).1 = r := by
    cases c with
    | createBook book =>
      cases hv : book.Validate with
      | some e => simp [service.Call.run, createBook_of_invalid r book e hv]
      | none =>
        simp [service.Call.run, createBook_of_valid r book hv] at h
    | getBook id =>
      simp only [service.Call.run, getBook_eq]
      cases r.books.lookup id <;> rfl
    | getAllBooks ord =>
      simp [service.Call.run, getAllBooks_eq]
    | updateBook id u =>
      simp only [service.Call.run] at h ⊢
      cases hl : r.books.lookup id with
      | none => rw [updateBook_of_absent r id u hl]
      | some e =>
        cases hv : u.Validate with
        | some err => rw [updateBook_of_invalid r id u e err hl hv]
        | none =>
          rw [updateBook_of_valid r id u e hl hv] at h ⊢
          exact update_error_keeps_store r _ h
    | deleteBook id =>
      simp only [service.Call.run, deleteBook_eq] at h ⊢
      cases hl : r.books.lookup id with
      | none => rfl
      | some e => simp [hl] at h
  rw [key]
  exact ⟨rfl, rfl, rfl⟩

/-- C18, at a store holding one book: an UpdateBook rejected by validation, and a
CreateBook rejected by validation. -/
theorem failed_call_keeps_store_witness :
    ((service.Call.updateBook 1 ⟨0, "A", "X", 5, 1, 0, 0⟩).run inmemory.repo
      (runOps [Op.create ⟨0, "A", "X", 2, 2, 0, 0⟩] NewBookRepository)).1 =
      runOps [Op.create ⟨0, "A", "X", 2, 2, 0, 0⟩] NewBookRepository ∧
    ((service.Call.createBook ⟨0, "", "X", 1, 1, 0, 0⟩).run inmemory.repo
      (runOps [Op.create ⟨0, "A", "X", 2, 2, 0, 0⟩] NewBookRepository)).1.nextID =
      (runOps [Op.create ⟨0, "A", "X", 2, 2, 0, 0⟩] NewBookRepository).nextID :=
  ⟨(failed_call_keeps_store (service.Call.updateBook 1 ⟨0, "A", "X", 5, 1, 0, 0⟩)
      (runOps [Op.create ⟨0, "A", "X", 2, 2, 0, 0⟩] NewBookRepository) (by decide)).1,
   (failed_call_keeps_store (service.Call.createBook ⟨0, "", "X", 1, 1, 0, 0⟩)
      (runOps [Op.create ⟨0, "A", "X", 2, 2, 0, 0⟩] NewBookRepository) (by decide)).2.2⟩

/-! ### Timestamps -/

/-- C13, refuted as stated: on a fresh in-memory store, two input books that differ only
in created_at and updated_at are both accepted by service CreateBook, and the records
stored for them carry different timestamps, the ones each caller supplied. -/
theorem createBook_timestamps_differ :
    (service.CreateBook inmemory.repo NewBookRepository ⟨0, "A", "X", 1, 1, 5, 6⟩).2.2 = none ∧
    (service.CreateBook inmemory.repo NewBookRepository ⟨0, "A", "X", 1, 1, 7, 8⟩).2.2 = none ∧
    (service.CreateBook inmemory.repo NewBookRepository
      ⟨0, "A", "X", 1, 1, 5, 6⟩).1.books.lookup 1 = some ⟨1, "A", "X", 1, 1, 5, 6⟩ ∧
    (service.CreateBook inmemory.repo NewBookRepository
      ⟨0, "A", "X", 1, 1, 7, 8⟩).1.books.lookup 1 = some ⟨1, "A", "X", 1, 1, 7, 8⟩ ∧
    ((service.CreateBook inmemory.repo NewBookRepository
        ⟨0, "A", "X", 1, 1, 5, 6⟩).1.books.lookup 1).map (fun b => b.CreatedAt) ≠
      ((service.CreateBook inmemory.repo NewBookRepository
        ⟨0, "A", "X", 1, 1, 7, 8⟩).1.books.lookup 1).map (fun b => b.CreatedAt) ∧
    ((service.CreateBook inmemory.repo NewBookRepository
        ⟨0, "A", "X", 1, 1, 5, 6⟩).1.books.lookup 1).map (fun b => b.UpdatedAt) ≠
      ((service.CreateBook inmemory.repo NewBookRepository
        ⟨0, "A", "X", 1, 1, 7, 8⟩).1.books.lookup 1).map (fun b => b.UpdatedAt) := by
  decide

/-- C13 (amended). The in-memory store does not set timestamps, it keeps the caller's:
for every in-memory store state and every two input books that agree on title, author,
available and quantity (in particular two that differ only in their created_at and
updated_at fields), service CreateBook returns the same error for both, and when it
succeeds the two stored records are stored under the same id, agree in id, title,
author, available and quantity, and each carries exactly the created_at and updated_at
its caller supplied. -/
theorem createBook_keeps_caller_timestamps (r : bookRepository) (b1 b2 : Book)
    (hTitle : b1.Title = b2.Title) (hAuthor : b1.Author = b2.Author)
    (hAvailable : b1.Available = b2.Available) (hQuantity : b1.Quantity = b2.Quantity) :
    (service.CreateBook inmemory.repo r b1).2.2 =
      (service.CreateBook inmemory.repo r b2).2.2 ∧
    ((service.CreateBook inmemory.repo r b1).2.2 = none →
      ∃ s1 s2 : Book,
        (service.CreateBook inmemory.repo r b1).1.books.lookup r.nextID = some s1 ∧
        (service.CreateBook inmemory.repo r b2).1.books.lookup r.nextID = some s2 ∧
        s1.CreatedAt = b1.CreatedAt ∧ s1.UpdatedAt = b1.UpdatedAt ∧
        s2.CreatedAt = b2.CreatedAt ∧ s2.UpdatedAt = b2.UpdatedAt ∧
        s1.ID = s2.ID ∧ s1.Title = s2.Title ∧ s1.Author = s2.Author ∧
        s1.Available = s2.Available ∧ s1.Quantity = s2.Quantity) := by
  have hval : b1.Validate = b2.Validate := by
    simp [Book.Validate, hTitle, hAuthor, hAvailable, hQuantity]
  refine ⟨by rw [createBook_error_eq, createBook_error_eq, hval], fun h => ?_⟩
  have hv1 : b1.Validate = none := by rw [← createBook_error_eq r b1]; exact h
  have hv2 : b2.Validate = none := hval ▸ hv1
  rw [createBook_of_valid r b1 hv1, createBook_of_valid r b2 hv2]
  exact ⟨_, _, AList.lookup_insert _, AList.lookup_insert _, rfl, rfl, rfl, rfl, rfl,
    hTitle, hAuthor, hQuantity, hQuantity⟩

/-- C13 (amended), at the two books of the refutation. -/
theorem createBook_keeps_caller_timestamps_witness :
    (service.CreateBook inmemory.repo NewBookRepository ⟨0, "A", "X", 1, 1, 5, 6⟩).2.2 =
      (service.CreateBook inmemory.repo NewBookRepository ⟨0, "A", "X", 1, 1, 7, 8⟩).2.2 :=
  (createBook_keeps_caller_timestamps NewBookRepository
    ⟨0, "A", "X", 1, 1, 5, 6⟩ ⟨0, "A", "X", 1, 1, 7, 8⟩ rfl rfl rfl rfl).1

/-! ### Keys, ids and the counter -/

theorem mem_apply_of_not_create (op : Op) (r : bookRepository) (h : op.isCreate = false)
    (k : Nat) (hk : k ∈ (op.apply r).books) : k ∈ r.books := by
  cases op with
  | create b => simp [Op.isCreate] at h
  | findByID id =>
    simp only [Op.apply, bookRepository.FindByID] at hk
    split at hk <;> exact hk
  | findAll ord => exact hk
  | update b =>
    simp only [Op.apply, bookRepository.Update] at hk
    split at hk
    · exact hk
    · rename_i e he
      rcases (AList.mem_insert r.books).1 hk with rfl | hk1
      · exact AList.lookup_isSome.1 (by rw [he]; rfl)
      · exact hk1
  | delete id =>
    simp only [Op.apply, bookRepository.Delete] at hk
    split at hk
    · exact hk
    · exact (AList.mem_erase.1 hk).2

theorem keys_bounds_runOps (ops : List Op) (r : bookRepository) (n : Nat)
    (hnext : r.nextID = n + 1) (hkeys : ∀ k ∈ r.books, 1 ≤ k ∧ k ≤ n)
    (hroom : n + countCreates ops + 1 < uintModulus) :
    (runOps ops r).nextID = n + countCreates ops + 1 ∧
    ∀ k ∈ (runOps ops r).books, 1 ≤ k ∧ k ≤ n + countCreates ops := by
  induction ops generalizing r n with
  | nil => simpa [runOps, countCreates] using ⟨hnext, hkeys⟩
  | cons op ops ih =>
    cases hc : op.isCreate with
    | false =>
      have hcount : countCreates (op :: ops) = countCreates ops := by
        simp [countCreates, List.filter_cons, hc]
      rw [hcount] at hroom ⊢
      exact ih (op.apply r) n (by rw [apply_nextID_of_not_create op r hc]; exact hnext)
        (fun k hk => hkeys k (mem_apply_of_not_create op r hc k hk)) hroom
    | true =>
      obtain ⟨b, rfl⟩ : ∃ b, op = Op.create b := by
        cases op <;> simp_all [Op.isCreate]
      have hcount : countCreates (Op.create b :: ops) = countCreates ops + 1 := by
        simp [countCreates, List.filter_cons, Op.isCreate]
      rw [hcount] at hroom ⊢
      have hnext1 : (Op.apply (Op.create b) r).nextID = (n + 1) + 1 := by
        show (r.nextID + 1) % uintModulus = (n + 1) + 1
        rw [hnext, Nat.mod_eq_of_lt (by omega)]
      have hkeys1 : ∀ k ∈ (Op.apply (Op.create b) r).books, 1 ≤ k ∧ k ≤ n + 1 := by
        intro k hk
        rcases (AList.mem_insert r.books).1 hk with rfl | hk1
        · show 1 ≤ r.nextID ∧ r.nextID ≤ n + 1
          omega
        · have := hkeys k hk1
          omega
      have := ih (Op.apply (Op.create b) r) (n + 1) hnext1 hkeys1 (by omega)
      refine ⟨by rw [runOps, this.1]; omega, fun k hk => ?_⟩
      have := this.2 k hk
      omega

/-- C19 (amended). Key/id consistency of the in-memory repository: in every state
reachable from NewBookRepository by a finite sequence of repository operations (Create,
FindByID, FindAll, Update, Delete, with arbitrary arguments), every record stored under
key k has its id field equal to k; and as long as the sequence contains fewer than
2^64 - 1 Create calls, every stored key k satisfies 1 <= k < nextID. -/
theorem stored_keys_consistent (ops : List Op) (k : Nat) (b : Book)
    (h : (runOps ops NewBookRepository).books.lookup k = some b) :
    b.ID = k ∧
    (countCreates ops + 1 < uintModulus →
      1 ≤ k ∧ k < (runOps ops NewBookRepository).nextID) := by
  have hids : idsMatchKeys (runOps ops NewBookRepository) :=
    idsMatchKeys_of_reachable _ ⟨ops, rfl⟩
  refine ⟨(idsMatchKeys_iff _).1 hids k b h, fun hroom => ?_⟩
  have hb := keys_bounds_runOps ops NewBookRepository 0 rfl
    (by intro k hk; simp [NewBookRepository] at hk) (by omega)
  have hk := hb.2 k (AList.lookup_isSome.1 (by rw [h]; rfl))
  rw [hb.1]
  omega

/-- C19 (amended), at create, create, update the second, delete the first. -/
theorem stored_keys_consistent_witness :
    (⟨2, "C", "Z", 0, 4, 7, 8⟩ : Book).ID = 2 ∧
    (1 ≤ 2 ∧ 2 < (runOps
      [Op.create ⟨9, "A", "X", 1, 1, 0, 0⟩, Op.create ⟨9, "B", "Y", 1, 1, 0, 0⟩,
       Op.update ⟨2, "C", "Z", 0, 4, 7, 8⟩, Op.delete 1] NewBookRepository).nextID) :=
  ⟨(stored_keys_consistent
      [Op.create ⟨9, "A", "X", 1, 1, 0, 0⟩, Op.create ⟨9, "B", "Y", 1, 1, 0, 0⟩,
       Op.update ⟨2, "C", "Z", 0, 4, 7, 8⟩, Op.delete 1] 2 ⟨2, "C", "Z", 0, 4, 7, 8⟩
      (by decide)).1,
   (stored_keys_consistent
      [Op.create ⟨9, "A", "X", 1, 1, 0, 0⟩, Op.create ⟨9, "B", "Y", 1, 1, 0, 0⟩,
       Op.update ⟨2, "C", "Z", 0, 4, 7, 8⟩, Op.delete 1] 2 ⟨2, "C", "Z", 0, 4, 7, 8⟩
      (by decide)).2 (by decide)⟩

theorem runOps_replicate_create (n : Nat) (b : Book) (r : bookRepository)
    (h : r.nextID < uintModulus) :
    (runOps (List.replicate n (Op.create b)) r).nextID = (r.nextID + n) % uintModulus := by
  induction n generalizing r with
  | zero => simp [runOps, Nat.mod_eq_of_lt h]
  | succ n ih =>
    have hnext : (Op.apply (Op.create b) r).nextID = (r.nextID + 1) % uintModulus := rfl
    rw [List.replicate_succ, runOps, ih _ (by rw [hnext]; exact Nat.mod_lt _ uintModulus_pos),
      hnext]
    simp only [uintModulus]
    omega

theorem mem_runOps_replicate_create (n : Nat) (b : Book) (r : bookRepository) (k : Nat)
    (hk : k ∈ r.books) : k ∈ (runOps (List.replicate n (Op.create b)) r).books := by
  induction n generalizing r with
  | zero => exact hk
  | succ n ih =>
    rw [List.replicate_succ, runOps]
    exact ih _ ((AList.mem_insert r.books).2 (Or.inr hk))

/-- C19, refuted as stated: after 2^64 - 1 Create calls on a fresh in-memory repository
the counter has wrapped to 0 while a record is stored under key 1, so that stored key
is not below nextID. -/
theorem stored_key_not_below_nextID :
    (runOps (List.replicate (2 ^ 64 - 1) (Op.create ⟨0, "A", "X", 1, 1, 0, 0⟩))
      NewBookRepository).nextID = 0 ∧
    (∃ b : Book,
      (runOps (List.replicate (2 ^ 64 - 1) (Op.create ⟨0, "A", "X", 1, 1, 0, 0⟩))
        NewBookRepository).books.lookup 1 = some b) ∧
    ¬ (1 < (runOps (List.replicate (2 ^ 64 - 1) (Op.create ⟨0, "A", "X", 1, 1, 0, 0⟩))
      NewBookRepository).nextID) := by
  have hnext : (runOps (List.replicate (2 ^ 64 - 1) (Op.create ⟨0, "A", "X", 1, 1, 0, 0⟩))
      NewBookRepository).nextID = 0 := by
    rw [runOps_replicate_create (2 ^ 64 - 1) ⟨0, "A", "X", 1, 1, 0, 0⟩
      NewBookRepository (by decide)]
    simp [NewBookRepository, uintModulus]
  refine ⟨hnext, ?_, by rw [hnext]; decide⟩
  have hsplit : (2 : Nat) ^ 64 - 1 = (2 ^ 64 - 2) + 1 := by norm_num
  have hmem : 1 ∈ (runOps (List.replicate (2 ^ 64 - 1) (Op.create ⟨0, "A", "X", 1, 1, 0, 0⟩))
      NewBookRepository).books := by
    rw [hsplit, List.replicate_succ, runOps]
    apply mem_runOps_replicate_create
    exact (AList.mem_insert _).2 (Or.inl rfl)
  have hsome := AList.lookup_isSome.2 hmem
  cases hl : (runOps (List.replicate (2 ^ 64 - 1) (Op.create ⟨0, "A", "X", 1, 1, 0, 0⟩))
      NewBookRepository).books.lookup 1 with
  | none => rw [hl] at hsome; simp at hsome
  | some b => exact ⟨b, rfl⟩

/-! ### Parsing the path id -/

theorem isDecimalDigit_iff (c : Char) :
    strconv.isDecimalDigit c = true ↔ 48 ≤ c.toNat ∧ c.toNat ≤ 57 := by
  simp [strconv.isDecimalDigit]

theorem decimalFold_ge (cs : List Char) (acc : Nat) :
    acc ≤ cs.foldl (fun acc c => 10 * acc + (c.toNat - 48)) acc := by
  induction cs generalizing acc with
  | nil => exact Nat.le_refl _
  | cons c cs ih =>
    simp only [List.foldl_cons]
    exact Nat.le_trans (by omega) (ih _)

theorem parseUintLoop_ok_iff (cs : List Char) (acc n : Nat) (hacc : acc ≤ strconv.maxVal) :
    strconv.parseUintLoop cs acc = Except.ok n ↔
      (∀ c ∈ cs, strconv.isDecimalDigit c = true) ∧
      cs.foldl (fun acc c => 10 * acc + (c.toNat - 48)) acc = n ∧ n ≤ strconv.maxVal := by
  induction cs generalizing acc with
  | nil =>
    simp only [strconv.parseUintLoop, Except.ok.injEq, List.not_mem_nil, false_implies,
      implies_true, List.foldl_nil, true_and]
    constructor
    · rintro rfl; exact ⟨rfl, hacc⟩
    · rintro ⟨h, _⟩; exact h
  | cons c cs ih =>
    unfold strconv.parseUintLoop
    by_cases hd : strconv.isDecimalDigit c = true
    · have hc := (isDecimalDigit_iff c).1 hd
      have hmax : strconv.maxVal = 4294967295 := by decide
      have hcut : ¬ acc ≥ strconv.cutoff := by
        simp only [strconv.cutoff]; omega
      have h10 : (acc * 10) % 2 ^ 64 = acc * 10 := Nat.mod_eq_of_lt (by omega)
      have h1 : (acc * 10 + (c.toNat - 48)) % 2 ^ 64 = 10 * acc + (c.toNat - 48) := by
        rw [Nat.mod_eq_of_lt (by omega)]; omega
      simp only [hd, if_true, hcut, if_false, h10, h1, List.mem_cons, forall_eq_or_imp,
        true_and, List.foldl_cons]
      by_cases hover : 10 * acc + (c.toNat - 48) > strconv.maxVal
      · have hlt : ¬ (10 * acc + (c.toNat - 48) < acc * 10) := by omega
        simp only [hlt, hover, or_true, if_true, reduceCtorEq, false_iff, not_and, not_le]
        intro _ hn
        have := decimalFold_ge cs (10 * acc + (c.toNat - 48))
        omega
      · have hlt : ¬ (10 * acc + (c.toNat - 48) < acc * 10) := by omega
        simp only [hlt, hover, or_self, if_false]
        exact ih _ (by omega)
    · simp [hd]

theorem parseUint_ok_iff (s : String) (n : Nat) :
    strconv.ParseUint s = Except.ok n ↔ strconv.denotesUint32 s n := by
  have hempty : s = "" ↔ s.data = [] :=
    ⟨fun h => by rw [h], fun h => String.ext h⟩
  unfold strconv.ParseUint strconv.denotesUint32 strconv.decimalValue
  by_cases hs : s = ""
  · simp [hs]
  · have hmax : strconv.maxVal = 4294967295 := by decide
    simp only [hs, if_false, ne_eq, mt hempty.2 hs, not_false_eq_true, true_and]
    rw [parseUintLoop_ok_iff s.data 0 n (by omega), hmax]

/-! ### The handlers -/

/-- C11. HTTP error mapping, for every repository behind the service: once the path id
and the JSON body have been accepted, the handler replies 400 when CreateBook or
UpdateBook returns an error, 404 when GetBook or DeleteBook returns an error, 500 when
GetAllBooks returns an error, each time with a body whose only field is error and
holds exactly the message of the service error; it replies 201 when CreateBook
succeeds and 200 when any of the other four succeeds. -/
theorem handler_error_mapping {σ : Type} (repo : BookRepository σ) (s : σ)
    (idParam : String) (id : Nat) (book : Book) (ord : Nat)
    (hid : strconv.ParseUint idParam = Except.ok id) :
    (∀ err, (service.CreateBook repo s book).2.2 = some err →
      (handler.CreateBook repo s (Except.ok book)).2 =
        { status := 400, body := [("error", handler.Value.str err)] }) ∧
    ((service.CreateBook repo s book).2.2 = none →
      (handler.CreateBook repo s (Except.ok book)).2.status = 201) ∧
    (∀ err, (service.UpdateBook repo s id book).2 = some err →
      (handler.UpdateBook repo s idParam (Except.ok book)).2 =
        { status := 400, body := [("error", handler.Value.str err)] }) ∧
    ((service.UpdateBook repo s id book).2 = none →
      (handler.UpdateBook repo s idParam (Except.ok book)).2.status = 200) ∧
    (∀ err, (service.GetBook repo s id).2 = Except.error err →
      (handler.GetBook repo s idParam).2 =
        { status := 404, body := [("error", handler.Value.str err)] }) ∧
    (∀ found, (service.GetBook repo s id).2 = Except.ok found →
      (handler.GetBook repo s idParam).2.status = 200) ∧
    (∀ err, (service.DeleteBook repo s id).2 = some err →
      (handler.DeleteBook repo s idParam).2 =
        { status := 404, body := [("error", handler.Value.str err)] }) ∧
    ((service.DeleteBook repo s id).2 = none →
      (handler.DeleteBook repo s idParam).2.status = 200) ∧
    (∀ err, (service.GetAllBooks repo s ord).2 = Except.error err →
      (handler.GetAllBooks repo s ord).2 =
        { status := 500, body := [("error", handler.Value.str err)] }) ∧
    (∀ bs, (service.GetAllBooks repo s ord).2 = Except.ok bs →
      (handler.GetAllBooks repo s ord).2.status = 200) := by
  unfold handler.CreateBook handler.UpdateBook handler.GetBook handler.DeleteBook
    handler.GetAllBooks
  simp only [hid]
  refine ⟨?_, ?_, ?_, ?_, ?_, ?_, ?_, ?_, ?_, ?_⟩
  · rcases service.CreateBook repo s book with ⟨s1, b1, e⟩
    rintro err rfl
    rfl
  · rcases service.CreateBook repo s book with ⟨s1, b1, e⟩
    rintro rfl
    rfl
  · rcases service.UpdateBook repo s id book with ⟨s1, e⟩
    rintro err rfl
    rfl
  · rcases service.UpdateBook repo s id book with ⟨s1, e⟩
    rintro rfl
    rfl
  · rcases service.GetBook repo s id with ⟨s1, e⟩
    rintro err rfl
    rfl
  · rcases service.GetBook repo s id with ⟨s1, e⟩
    rintro found rfl
    rfl
  · rcases service.DeleteBook repo s id with ⟨s1, e⟩
    rintro err rfl
    rfl
  · rcases service.DeleteBook repo s id with ⟨s1, e⟩
    rintro rfl
    rfl
  · rcases service.GetAllBooks repo s ord with ⟨s1, e⟩
    rintro err rfl
    rfl
  · rcases service.GetAllBooks repo s ord with ⟨s1, e⟩
    rintro bs rfl
    rfl

/-- C11, at the scenarios of the spec on the in-memory store (an update of the absent
id 42 with a valid body, a lookup of the absent id 999) and at a listing over a
repository that fails. -/
theorem handler_error_mapping_witness :
    (handler.UpdateBook inmemory.repo NewBookRepository "42"
      (Except.ok ⟨0, "A", "X", 1, 1, 0, 0⟩)).2 =
      { status := 400, body := [("error", handler.Value.str "book not found")] } ∧
    (handler.GetBook inmemory.repo NewBookRepository "999").2 =
      { status := 404, body := [("error", handler.Value.str "book not found")] } ∧
    (handler.GetAllBooks (handler.failingRepo "connection refused") () 0).2 =
      { status := 500, body := [("error", handler.Value.str "connection refused")] } :=
  ⟨(handler_error_mapping inmemory.repo NewBookRepository "42" 42
      ⟨0, "A", "X", 1, 1, 0, 0⟩ 0 (by decide)).2.2.1 "book not found" (by decide),
   (handler_error_mapping inmemory.repo NewBookRepository "999" 999
      ⟨0, "A", "X", 1, 1, 0, 0⟩ 0 (by decide)).2.2.2.2.1 "book not found" (by decide),
   (handler_error_mapping (handler.failingRepo "connection refused") () "1" 1
      ⟨0, "A", "X", 1, 1, 0, 0⟩ 0 (by decide)).2.2.2.2.2.2.2.2.1 "connection refused"
      (by decide)⟩

/-- C12. Path id parsing in the GetBook, UpdateBook and DeleteBook handlers. The path
parameter is accepted, with value n, exactly when it denotes the base-10 unsigned
integer n and n fits in 32 bits (a non-empty string of decimal digits of value at
most 4294967295). An accepted parameter takes each handler past the check: GetBook
and DeleteBook call the service with id n and reply from its result, UpdateBook goes
on to the body and then calls the service with id n. A parameter that denotes no such
number gets status 400 with the body that has the single field error equal to
"Invalid book ID", whatever the repository and, for UpdateBook, whatever the body,
and the store is returned as it was. GetBook and DeleteBook reply 400 in no other
case. -/
theorem path_id_parsing {σ : Type} (repo : BookRepository σ) (s : σ) (idParam : String)
    (body : Except String Book) :
    (∀ n, strconv.ParseUint idParam = Except.ok n ↔ strconv.denotesUint32 idParam n) ∧
    ((∃ n, strconv.ParseUint idParam = Except.ok n) ↔
      ∃ n, strconv.denotesUint32 idParam n) ∧
    (∀ n, strconv.denotesUint32 idParam n →
      handler.GetBook repo s idParam =
        (match service.GetBook repo s n with
          | (s1, Except.error err) =>
            (s1, { status := 404, body := [("error", handler.Value.str err)] })
          | (s1, Except.ok book) =>
            (s1, { status := 200, body := [("data", handler.Value.book book)] })) ∧
      handler.UpdateBook repo s idParam body =
        (match body with
          | Except.error err =>
            (s, { status := 400, body := [("error", handler.Value.str err)] })
          | Except.ok book =>
            match service.UpdateBook repo s n book with
            | (s1, some err) =>
              (s1, { status := 400, body := [("error", handler.Value.str err)] })
            | (s1, none) =>
              (s1, { status := 200,
                     body := [("message", handler.Value.str "Book updated successfully")] })) ∧
      handler.DeleteBook repo s idParam =
        (match service.DeleteBook repo s n with
          | (s1, some err) =>
            (s1, { status := 404, body := [("error", handler.Value.str err)] })
          | (s1, none) =>
            (s1, { status := 200,
                   body := [("message", handler.Value.str "Book deleted successfully")] }))) ∧
    ((∀ n, ¬ strconv.denotesUint32 idParam n) →
      handler.GetBook repo s idParam =
        (s, { status := 400, body := [("error", handler.Value.str "Invalid book ID")] }) ∧
      handler.UpdateBook repo s idParam body =
        (s, { status := 400, body := [("error", handler.Value.str "Invalid book ID")] }) ∧
      handler.DeleteBook repo s idParam =
        (s, { status := 400, body := [("error", handler.Value.str "Invalid book ID")] })) ∧
    ((handler.GetBook repo s idParam).2.status = 400 ↔
      ∀ n, ¬ strconv.denotesUint32 idParam n) ∧
    ((handler.DeleteBook repo s idParam).2.status = 400 ↔
      ∀ n, ¬ strconv.denotesUint32 idParam n) := by
  have hacc : ∀ n, strconv.denotesUint32 idParam n →
      handler.GetBook repo s idParam =
        (match service.GetBook repo s n with
          | (s1, Except.error err) =>
            (s1, { status := 404, body := [("error", handler.Value.str err)] })
          | (s1, Except.ok book) =>
            (s1, { status := 200, body := [("data", handler.Value.book book)] })) ∧
      handler.UpdateBook repo s idParam body =
        (match body with
          | Except.error err =>
            (s, { status := 400, body := [("error", handler.Value.str err)] })
          | Except.ok book =>
            match service.UpdateBook repo s n book with
            | (s1, some err) =>
              (s1, { status := 400, body := [("error", handler.Value.str err)] })
            | (s1, none) =>
              (s1, { status := 200,
                     body := [("message", handler.Value.str "Book updated successfully")] })) ∧
      handler.DeleteBook repo s idParam =
        (match service.DeleteBook repo s n with
          | (s1, some err) =>
            (s1, { status := 404, body := [("error", handler.Value.str err)] })
          | (s1, none) =>
            (s1, { status := 200,
                   body := [("message", handler.Value.str "Book deleted successfully")] })) := by
    intro n hn
    have hp := (parseUint_ok_iff idParam n).2 hn
    simp only [handler.GetBook, handler.UpdateBook, handler.DeleteBook, hp]
    exact ⟨rfl, rfl, rfl⟩
  have hrej : (∀ n, ¬ strconv.denotesUint32 idParam n) →
      handler.GetBook repo s idParam =
        (s, { status := 400, body := [("error", handler.Value.str "Invalid book ID")] }) ∧
      handler.UpdateBook repo s idParam body =
        (s, { status := 400, body := [("error", handler.Value.str "Invalid book ID")] }) ∧
      handler.DeleteBook repo s idParam =
        (s, { status := 400, body := [("error", handler.Value.str "Invalid book ID")] }) := by
    intro h
    have hpe : ∃ e, strconv.ParseUint idParam = Except.error e := by
      cases hp : strconv.ParseUint idParam with
      | error e => exact ⟨e, rfl⟩
      | ok n => exact absurd ((parseUint_ok_iff idParam n).1 hp) (h n)
    obtain ⟨e, he⟩ := hpe
    simp only [handler.GetBook, handler.UpdateBook, handler.DeleteBook, he]
    exact ⟨rfl, rfl, rfl⟩
  refine ⟨parseUint_ok_iff idParam, ?_, hacc, hrej, ?_, ?_⟩
  · simp only [parseUint_ok_iff]
  · constructor
    · intro h400 n hn
      rw [(hacc n hn).1] at h400
      generalize service.GetBook repo s n = res at h400
      rcases res with ⟨s1, e | book⟩ <;> simp at h400
    · intro h
      rw [(hrej h).1]
  · constructor
    · intro h400 n hn
      rw [(hacc n hn).2.2] at h400
      generalize service.DeleteBook repo s n = res at h400
      rcases res with ⟨s1, _ | err⟩ <;> simp at h400
    · intro h
      rw [(hrej h).2.2]

/-- C12, on a store holding one book: the path parameter 1 is accepted and GetBook
replies 200 with the stored book; the path parameter 4294967296, one above the largest
32-bit value, is rejected by UpdateBook although the body would be valid, and the store
is returned as it was. -/
theorem path_id_parsing_witness :
    handler.GetBook inmemory.repo
        (runOps [Op.create ⟨0, "A", "X", 2, 2, 0, 0⟩] NewBookRepository) "1" =
      (runOps [Op.create ⟨0, "A", "X", 2, 2, 0, 0⟩] NewBookRepository,
        { status := 200, body := [("data", handler.Value.book ⟨1, "A", "X", 2, 2, 0, 0⟩)] }) ∧
    handler.UpdateBook inmemory.repo
        (runOps [Op.create ⟨0, "A", "X", 2, 2, 0, 0⟩] NewBookRepository) "4294967296"
        (Except.ok ⟨0, "B", "Y", 1, 1, 0, 0⟩) =
      (runOps [Op.create ⟨0, "A", "X", 2, 2, 0, 0⟩] NewBookRepository,
        { status := 400, body := [("error", handler.Value.str "Invalid book ID")] }) :=
  ⟨((path_id_parsing inmemory.repo
      (runOps [Op.create ⟨0, "A", "X", 2, 2, 0, 0⟩] NewBookRepository) "1"
      (Except.ok ⟨0, "B", "Y", 1, 1, 0, 0⟩)).2.2.1 1 (by decide)).1.trans (by rfl),
   ((path_id_parsing inmemory.repo
      (runOps [Op.create ⟨0, "A", "X", 2, 2, 0, 0⟩] NewBookRepository) "4294967296"
      (Except.ok ⟨0, "B", "Y", 1, 1, 0, 0⟩)).2.2.2.1
    (fun n hn => absurd (hn.2.2.1 ▸ hn.2.2.2 :
        strconv.decimalValue "4294967296".data ≤ 4294967295) (by decide))).2.1⟩

/-! ### Snapshot isolation -/

theorem ptr_mem_insert_entries (m : AList (fun _ : Nat => Nat)) (a v : Nat)
    (e : Sigma fun _ : Nat => Nat) (he : e ∈ (m.insert a v).entries) :
    e = ⟨a, v⟩ ∨ e ∈ m.entries := by
  rw [AList.insert_entries] at he
  rcases List.mem_cons.1 he with h | h
  · exact Or.inl h
  · exact Or.inr ((List.kerase_sublist a _).subset h)

theorem ptr_mem_erase_entries (m : AList (fun _ : Nat => Nat)) (a : Nat)
    (e : Sigma fun _ : Nat => Nat) (he : e ∈ (m.erase a).entries) : e ∈ m.entries :=
  (List.kerase_sublist a _).subset he

theorem separated_grow (w : ptr.World) (hw : w.separated) (b : Book) :
    ptr.World.separated
      { heap := w.heap ++ [b], repo := w.repo, held := w.heap.length :: w.held } := by
  obtain ⟨h1, h2, h3⟩ := hw
  refine ⟨fun e he => ?_, fun p hp => ?_, fun e he hmem => ?_⟩
  · have := h1 e he
    simp only [List.length_append, List.length_singleton]
    omega
  · simp only [List.length_append, List.length_singleton]
    rcases List.mem_cons.1 hp with rfl | hp
    · omega
    · have := h2 p hp
      omega
  · rcases List.mem_cons.1 hmem with heq | hmem
    · have := h1 e he
      omega
    · exact h3 e he hmem

theorem separated_store (w : ptr.World) (hw : w.separated) (h : List Book) (b : Book)
    (key n : Nat) (hlen : h.length = w.heap.length) :
    ptr.World.separated
      { heap := h ++ [b],
        repo := { books := w.repo.books.insert key h.length, nextID := n },
        held := w.held } := by
  obtain ⟨h1, h2, h3⟩ := hw
  refine ⟨fun e he => ?_, fun p hp => ?_, fun e he hmem => ?_⟩
  · simp only [List.length_append, List.length_singleton]
    rcases ptr_mem_insert_entries _ _ _ e he with rfl | he
    · simp only; omega
    · have := h1 e he
      omega
  · simp only [List.length_append, List.length_singleton]
    have := h2 p hp
    omega
  · rcases ptr_mem_insert_entries _ _ _ e he with rfl | he
    · have := h2 _ hmem
      simp only at this
      omega
    · exact h3 e he hmem

theorem findAllStep_none (l : List (Sigma fun _ : Nat => Nat)) :
    l.foldl ptr.findAllStep none = none := by
  induction l with
  | nil => rfl
  | cons e l ih => simpa [List.foldl_cons, ptr.findAllStep] using ih

theorem findAll_fold_fresh (l : List (Sigma fun _ : Nat => Nat)) (h h1 : List Book)
    (ps ps1 : List Nat)
    (hfold : l.foldl ptr.findAllStep (some (h, ps)) = some (h1, ps1)) :
    h.length ≤ h1.length ∧
    ∀ p ∈ ps1, p ∈ ps ∨ (h.length ≤ p ∧ p < h1.length) := by
  induction l generalizing h ps with
  | nil =>
    simp only [List.foldl_nil, Option.some.injEq, Prod.mk.injEq] at hfold
    obtain ⟨rfl, rfl⟩ := hfold
    exact ⟨Nat.le_refl _, fun p hp => Or.inl hp⟩
  | cons e l ih =>
    rw [List.foldl_cons] at hfold
    cases hb : h[e.2]? with
    | none =>
      simp only [ptr.findAllStep, hb] at hfold
      rw [findAllStep_none] at hfold
      exact absurd hfold (by simp)
    | some b =>
      simp only [ptr.findAllStep, hb] at hfold
      obtain ⟨hle, hps⟩ := ih _ _ hfold
      simp only [List.length_append, List.length_singleton] at hle hps
      refine ⟨by omega, fun p hp => ?_⟩
      rcases hps p hp with hin | hrange
      · rcases List.mem_append.1 hin with hin | hin
        · exact Or.inl hin
        · simp only [List.mem_singleton] at hin
          exact Or.inr ⟨by omega, by omega⟩
      · exact Or.inr ⟨by omega, hrange.2⟩

theorem separated_step (w w1 : ptr.World) (a : ptr.Action) (hw : w.separated)
    (hstep : w.step a = some w1) : w1.separated := by
  cases a with
  | newBook b =>
    simp only [ptr.World.step, Option.some.injEq] at hstep
    subst hstep
    exact separated_grow w hw b
  | mutate p b =>
    simp only [ptr.World.step] at hstep
    split_ifs at hstep with hp
    simp only [Option.some.injEq] at hstep
    subst hstep
    simpa [ptr.World.separated] using hw
  | create p =>
    simp only [ptr.World.step, ptr.bookRepository.Create] at hstep
    split_ifs at hstep with hp
    cases hb : w.heap[p]? with
    | none => simp [hb] at hstep
    | some b =>
      simp only [hb, Option.some.injEq] at hstep
      subst hstep
      exact separated_store w hw _ _ _ _ (by simp)
  | findByID id =>
    simp only [ptr.World.step, ptr.bookRepository.FindByID] at hstep
    cases hl : w.repo.books.lookup id with
    | none =>
      simp only [hl, Option.some.injEq] at hstep
      subst hstep
      exact hw
    | some q =>
      cases hb : w.heap[q]? with
      | none => simp [hl, hb] at hstep
      | some b =>
        simp only [hl, hb, Option.some.injEq] at hstep
        subst hstep
        exact separated_grow w hw b
  | findAll ord =>
    simp only [ptr.World.step, ptr.bookRepository.FindAll] at hstep
    cases hfold : (ptr.rangeOrder w.repo.books ord).foldl ptr.findAllStep
        (some (w.heap, [])) with
    | none => simp [hfold] at hstep
    | some res =>
      obtain ⟨h1, ps⟩ := res
      simp only [hfold, Option.some.injEq] at hstep
      subst hstep
      obtain ⟨hle, hps⟩ := findAll_fold_fresh _ _ _ _ _ hfold
      obtain ⟨i1, i2, i3⟩ := hw
      refine ⟨fun e he => ?_, fun p hp => ?_, fun e he hmem => ?_⟩
      · have := i1 e he
        simp only
        omega
      · simp only at hp ⊢
        rcases List.mem_append.1 hp with hp | hp
        · rcases hps p hp with hnil | hrange
          · simp at hnil
          · exact hrange.2
        · have := i2 p hp
          omega
      · simp only at hmem
        rcases List.mem_append.1 hmem with hp | hp
        · rcases hps _ hp with hnil | hrange
          · simp at hnil
          · have := i1 e he
            omega
        · exact i3 e he hp
  | update p =>
    simp only [ptr.World.step, ptr.bookRepository.Update] at hstep
    split_ifs at hstep with hp
    cases hb : w.heap[p]? with
    | none => simp [hb] at hstep
    | some b =>
      cases hl : w.repo.books.lookup b.ID with
      | none =>
        simp only [hb, hl, Option.some.injEq] at hstep
        subst hstep
        exact hw
      | some q =>
        simp only [hb, hl, Option.some.injEq] at hstep
        subst hstep
        exact separated_store w hw _ _ _ _ rfl
  | delete id =>
    simp only [ptr.World.step, ptr.bookRepository.Delete] at hstep
    cases hl : w.repo.books.lookup id with
    | none =>
      simp only [hl, Option.some.injEq] at hstep
      subst hstep
      exact hw
    | some q =>
      simp only [hl, Option.some.injEq] at hstep
      subst hstep
      obtain ⟨i1, i2, i3⟩ := hw
      exact ⟨fun e he => i1 e (ptr_mem_erase_entries _ _ e he), i2,
        fun e he => i3 e (ptr_mem_erase_entries _ _ e he)⟩

theorem separated_run (acts : List ptr.Action) (w w1 : ptr.World) (hw : w.separated)
    (hrun : ptr.World.run acts w = some w1) : w1.separated := by
  induction acts generalizing w with
  | nil =>
    simp only [ptr.World.run, Option.some.injEq] at hrun
    subst hrun
    exact hw
  | cons a acts ih =>
    simp only [ptr.World.run] at hrun
    cases hs : w.step a with
    | none => simp [hs] at hrun
    | some w2 =>
      simp only [hs] at hrun
      exact ih w2 (separated_step w w2 a hw hs) hrun

theorem found_eq (w : ptr.World) (id : Nat) :
    w.found id =
      match w.repo.books.lookup id with
      | none => some (Except.error "book not found")
      | some q => (w.heap[q]?).map Except.ok := by
  unfold ptr.World.found ptr.bookRepository.FindByID
  cases hl : w.repo.books.lookup id with
  | none => rfl
  | some q =>
    cases hb : w.heap[q]? with
    | none => simp [hb]
    | some b => simp [hb]

theorem separated_init : ptr.World.init.separated := by
  refine ⟨fun e he => ?_, fun p hp => ?_, fun e he => ?_⟩ <;>
    simp [ptr.World.init, ptr.NewBookRepository] at *

/-- C14. Snapshot isolation of the in-memory repository, on the store with its
pointers: in every world a caller can reach from a new repository by making Book
objects, overwriting objects it holds, and calling Create, FindByID, FindAll, Update
and Delete, the pointers the caller holds (those returned by FindByID, the elements of
the slices returned by FindAll, and the pointers to its own objects, which are the ones
it can pass to Create and Update) are none of the store's. So FindByID(id) has a
result for every id, and overwriting the object behind any held pointer with
arbitrary field values, which the caller is free to do, leaves that result as it was. -/
theorem snapshot_isolation (acts : List ptr.Action) (w : ptr.World)
    (hrun : ptr.World.run acts ptr.World.init = some w)
    (p : Nat) (hp : p ∈ w.held) (b : Book) (id : Nat) :
    (∃ res, w.found id = some res) ∧
    w.step (ptr.Action.mutate p b) =
      some { heap := w.heap.set p b, repo := w.repo, held := w.held } ∧
    ptr.World.found { heap := w.heap.set p b, repo := w.repo, held := w.held } id =
      w.found id := by
  obtain ⟨h1, h2, h3⟩ := separated_run acts _ w separated_init hrun
  rw [found_eq, found_eq]
  refine ⟨?_, by simp [ptr.World.step, hp], ?_⟩
  · cases hl : w.repo.books.lookup id with
    | none => exact ⟨_, rfl⟩
    | some q =>
      have hq := h1 ⟨id, q⟩ (AList.mem_lookup_iff.1 hl)
      simp only at hq
      exact ⟨Except.ok (w.heap[q]), by simp [List.getElem?_eq_getElem hq]⟩
  · cases hl : w.repo.books.lookup id with
    | none => rfl
    | some q =>
      have hne : p ≠ q := by
        rintro rfl
        exact h3 ⟨id, p⟩ (AList.mem_lookup_iff.1 hl) hp
      simp only [List.getElem?_set_ne hne]

/-- C14, in the world after the caller made a book, passed it to Create and looked it
up with FindByID: it holds the pointer FindByID returned (2) and the pointer it passed
to Create (0); overwriting either object leaves the result of FindByID(1) as it was. -/
theorem snapshot_isolation_witness :
    ptr.World.found
      { heap := ([⟨1, "A", "X", 1, 1, 0, 0⟩, ⟨1, "A", "X", 1, 1, 0, 0⟩,
                  ⟨1, "A", "X", 1, 1, 0, 0⟩] : List Book).set 2 ⟨9, "Z", "", -5, -7, 1, 1⟩,
        repo := { books := (∅ : AList (fun _ : Nat => Nat)).insert 1 1, nextID := 2 },
        held := [2, 0] } 1 =
      some (Except.ok ⟨1, "A", "X", 1, 1, 0, 0⟩) ∧
    ptr.World.found
      { heap := ([⟨1, "A", "X", 1, 1, 0, 0⟩, ⟨1, "A", "X", 1, 1, 0, 0⟩,
                  ⟨1, "A", "X", 1, 1, 0, 0⟩] : List Book).set 0 ⟨9, "Z", "", -5, -7, 1, 1⟩,
        repo := { books := (∅ : AList (fun _ : Nat => Nat)).insert 1 1, nextID := 2 },
        held := [2, 0] } 1 =
      some (Except.ok ⟨1, "A", "X", 1, 1, 0, 0⟩) :=
  ⟨((snapshot_isolation
      [ptr.Action.newBook ⟨0, "A", "X", 1, 1, 0, 0⟩, ptr.Action.create 0,
       ptr.Action.findByID 1]
      { heap := [⟨1, "A", "X", 1, 1, 0, 0⟩, ⟨1, "A", "X", 1, 1, 0, 0⟩,
                 ⟨1, "A", "X", 1, 1, 0, 0⟩],
        repo := { books := (∅ : AList (fun _ : Nat => Nat)).insert 1 1, nextID := 2 },
        held := [2, 0] }
      rfl 2 (by decide) ⟨9, "Z", "", -5, -7, 1, 1⟩ 1).2.2).trans (by decide),
   ((snapshot_isolation
      [ptr.Action.newBook ⟨0, "A", "X", 1, 1, 0, 0⟩, ptr.Action.create 0,
       ptr.Action.findByID 1]
      { heap := [⟨1, "A", "X", 1, 1, 0, 0⟩, ⟨1, "A", "X", 1, 1, 0, 0⟩,
                 ⟨1, "A", "X", 1, 1, 0, 0⟩],
        repo := { books := (∅ : AList (fun _ : Nat => Nat)).insert 1 1, nextID := 2 },
        held := [2, 0] }
      rfl 0 (by decide) ⟨9, "Z", "", -5, -7, 1, 1⟩ 1).2.2).trans (by decide)⟩
